import Mathlib

/-!
Verification development for the `metrics-analyzer` repository
(`src/log-metrics.js`).

The script scans a log file line by line, matches each line against a fixed
set of regular expressions, folds the extracted events into a mutable
accumulator (`metrics`), and finally derives a report (`calculateMetrics`).
This file gives a shallow embedding of that pipeline:

* the regular expressions are embedded as direct leftmost-match scanners over
  `List Char` (each `+`-class in the source patterns is followed by a
  character outside the class, so greedy matching without backtracking is
  exactly the JavaScript regex semantics);
* the per-line loop body (source lines 56-201) becomes the pure state
  transition `step`, applied by `processLines` in input order;
* the derived-metrics calculation (source lines 204-312) becomes
  `calculateMetrics`, with `process.exit(1)` modelled as `Except.error`;
* JavaScript numbers appearing in divisions are modelled by `JsNum`
  (exact rationals extended with the IEEE special values `posInf`, `negInf`,
  `nan`); `toFixed` string formatting is elided as presentation.
-/

namespace LogMetrics

/-! ### Character classes of the source regular expressions -/

/-- The class `\w` (`[A-Za-z0-9_]`). -/
def wordChar (c : Char) : Bool := c.isAlphanum || c == '_'

/-- The class `[a-z0-9]` (wamid characters). -/
def lowerAlnum (c : Char) : Bool := (decide ('a' ≤ c) && decide (c ≤ 'z')) || c.isDigit

/-- The class `[A-Z0-9-]` (Clevertap message-id characters). -/
def upperNumDash (c : Char) : Bool :=
  (decide ('A' ≤ c) && decide (c ≤ 'Z')) || c.isDigit || c == '-'

/-! ### Primitive matching combinators -/

/-- Match a fixed-length sequence of character predicates, returning the
matched characters and the remainder. -/
def matchMask : List (Char → Bool) → List Char → Option (List Char × List Char)
  | [], s => some ([], s)
  | _ :: _, [] => none
  | p :: ps, c :: s =>
    if p c then
      match matchMask ps s with
      | some (m, r) => some (c :: m, r)
      | none => none
    else none

/-- Match a literal character sequence, returning the remainder. -/
def lit : List Char → List Char → Option (List Char)
  | [], s => some s
  | _ :: _, [] => none
  | c :: cs, d :: ds => if c == d then lit cs ds else none

/-- Split off the maximal (greedy) run of characters satisfying `p`. -/
def takeRun (p : Char → Bool) : List Char → List Char × List Char
  | [] => ([], [])
  | c :: cs =>
    if p c then
      let (r, rest) := takeRun p cs
      (c :: r, rest)
    else ([], c :: cs)

/-- A greedy run of length at least one (the regex `+`). -/
def run1 (p : Char → Bool) (s : List Char) : Option (String × List Char) :=
  match takeRun p s with
  | ([], _) => none
  | (r, rest) => some (String.mk r, rest)

/-- Leftmost match: try `f` at every suffix, earliest position first.  This is
how `String.prototype.match` (without the `g` flag) locates a match. -/
def scan {α : Type} (f : List Char → Option α) : List Char → Option α
  | [] => f []
  | c :: rest =>
    match f (c :: rest) with
    | some a => some a
    | none => scan f rest

/-! ### The source regular expressions

`timestampRegex = /(\d{4}-\d{2}-\d{2} \d{2}:\d{2}:\d{2})/`
`logLevelRegex = /(\d{4}-\d{2}-\d{2} \d{2}:\d{2}:\d{2}) (\w+):/`
`jobCompletedRegex = /Job ID (\d+) completed successfully/`
`messageCompletedRegex = /wabaNumber (\d+) ::: (\d+) ::: Completed successfully with wamid: ([a-z0-9]+) ::: Clevertap MsgID: ([A-Z0-9-]+)/`
`storeSuccessRegex = /(\d+) ::: CleverTapStoreWamidMsgidService: ([a-z0-9]+) ::: ([A-Z0-9-]+) stored successfully/`
`cacheHitRegex = /Cache hit for wabaNumber: (\d+)/`
-/

/-- The 19-character shape `\d{4}-\d{2}-\d{2} \d{2}:\d{2}:\d{2}`. -/
def tsMask : List (Char → Bool) :=
  [Char.isDigit, Char.isDigit, Char.isDigit, Char.isDigit, (· == '-'),
   Char.isDigit, Char.isDigit, (· == '-'), Char.isDigit, Char.isDigit,
   (· == ' '), Char.isDigit, Char.isDigit, (· == ':'), Char.isDigit,
   Char.isDigit, (· == ':'), Char.isDigit, Char.isDigit]

/-- Match a timestamp at the current position. -/
def tsAt (s : List Char) : Option (String × List Char) :=
  match matchMask tsMask s with
  | some (m, r) => some (String.mk m, r)
  | none => none

/-- Match `logLevelRegex` at the current position: timestamp, space, `\w+`,
colon; captures (timestamp, level). -/
def logLevelAt (s : List Char) : Option (String × String) := do
  let (ts, r) ← tsAt s
  let r ← lit [' '] r
  let (lvl, r) ← run1 wordChar r
  let _ ← lit [':'] r
  pure (ts, lvl)

/-- Match `jobCompletedRegex` at the current position; captures the job id. -/
def jobAt (s : List Char) : Option String := do
  let r ← lit (("Job ID ").data) s
  let (jobId, r) ← run1 Char.isDigit r
  let _ ← lit ((" completed successfully").data) r
  pure jobId

/-- Match `messageCompletedRegex` at the current position; captures
(wabaNumber, identifier, wamid, msgId). -/
def messageAt (s : List Char) : Option (String × String × String × String) := do
  let r ← lit (("wabaNumber ").data) s
  let (waba, r) ← run1 Char.isDigit r
  let r ← lit ((" ::: ").data) r
  let (ident, r) ← run1 Char.isDigit r
  let r ← lit ((" ::: Completed successfully with wamid: ").data) r
  let (wamid, r) ← run1 lowerAlnum r
  let r ← lit ((" ::: Clevertap MsgID: ").data) r
  let (msgId, _) ← run1 upperNumDash r
  pure (waba, ident, wamid, msgId)

/-- Match `storeSuccessRegex` at the current position; captures
(wabaNumber, wamid, msgId). -/
def storeAt (s : List Char) : Option (String × String × String) := do
  let (waba, r) ← run1 Char.isDigit s
  let r ← lit ((" ::: CleverTapStoreWamidMsgidService: ").data) r
  let (wamid, r) ← run1 lowerAlnum r
  let r ← lit ((" ::: ").data) r
  let (msgId, r) ← run1 upperNumDash r
  let _ ← lit ((" stored successfully").data) r
  pure (waba, wamid, msgId)

/-- Match `cacheHitRegex` at the current position; captures the waba number. -/
def cacheAt (s : List Char) : Option String := do
  let r ← lit (("Cache hit for wabaNumber: ").data) s
  let (waba, _) ← run1 Char.isDigit r
  pure waba

/-- Embeds `line.match(timestampRegex)?.[1]`. -/
def timestampMatch (line : String) : Option String :=
  scan (fun s => (tsAt s).map (·.1)) line.data

/-- Embeds `line.match(logLevelRegex)`, captures 1 and 2. -/
def logLevelMatch (line : String) : Option (String × String) := scan logLevelAt line.data

/-- Embeds `line.match(jobCompletedRegex)`, capture 1. -/
def jobMatch (line : String) : Option String := scan jobAt line.data

/-- Embeds `line.match(messageCompletedRegex)`, captures 1-4. -/
def messageMatch (line : String) : Option (String × String × String × String) :=
  scan messageAt line.data

/-- Embeds `line.match(storeSuccessRegex)`, captures 1-3. -/
def storeMatch (line : String) : Option (String × String × String) := scan storeAt line.data

/-- Embeds `line.match(cacheHitRegex)`, capture 1. -/
def cacheMatch (line : String) : Option String := scan cacheAt line.data

/-! ### Dates

`new Date("YYYY-MM-DD HH:MM:SS")` parses a local-time instant; the script
only ever compares such dates and subtracts them.  `dateMs` maps the
19-character timestamp shape to milliseconds since the civil epoch
(Gregorian day number by Howard Hinnant's `days_from_civil`), which agrees
with the JavaScript value up to the constant local-timezone offset, so all
comparisons and differences agree with the source. -/

/-- Gregorian day number of a civil date (1970-01-01 is day 0). -/
def daysFromCivil (y mo d : Int) : Int :=
  let y2 := if mo ≤ 2 then y - 1 else y
  let era : Int := (if 0 ≤ y2 then y2 else y2 - 399) / 400
  let yoe := y2 - era * 400
  let doy := (153 * (mo + (if 2 < mo then -3 else 9)) + 2) / 5 + d - 1
  let doe := yoe * 365 + yoe / 4 - yoe / 100 + doy
  era * 146097 + doe - 719468

/-- Millisecond value of a matched `YYYY-MM-DD HH:MM:SS` timestamp capture. -/
def dateMs (ts : String) : Int :=
  match (ts.data.filter Char.isDigit).map (fun c => ((c.toNat : Int) - 48)) with
  | [y1, y2, y3, y4, mo1, mo2, d1, d2, h1, h2, mi1, mi2, s1, s2] =>
    let y := 1000 * y1 + 100 * y2 + 10 * y3 + y4
    let mo := 10 * mo1 + mo2
    let d := 10 * d1 + d2
    (daysFromCivil y mo d * 86400 + (10 * h1 + h2) * 3600 + (10 * mi1 + mi2) * 60
      + (10 * s1 + s2)) * 1000
  | _ => 0

/-- Computes `timestamp.substring(0, 16)`: the time-bucket key (minute granularity). -/
def minuteKey (ts : String) : String := String.mk (ts.data.take 16)

/-! ### JavaScript objects as association lists and sets as lists

JavaScript object keys are unique and kept in insertion order; `Set`
deduplicates and also keeps insertion order. -/

/-- Reads `obj[k]`, as an `Option`. -/
def lookupKey {α : Type} (k : String) : List (String × α) → Option α
  | [] => none
  | (k2, v) :: rest => if k2 = k then some v else lookupKey k rest

/-- Apply `f` to the value stored under `k` (first occurrence), if any. -/
def updateKey {α : Type} (k : String) (f : α → α) : List (String × α) → List (String × α)
  | [] => []
  | (k2, v) :: rest => if k2 = k then (k2, f v) :: rest else (k2, v) :: updateKey k f rest

/-- Performs `if (!obj[k]) obj[k] = v`: create the entry only when absent. -/
def insertIfAbsent {α : Type} (k : String) (v : α) (m : List (String × α)) :
    List (String × α) :=
  if (lookupKey k m).isSome then m else m ++ [(k, v)]

/-- Performs `obj[k] = v`: overwrite or append. -/
def setKey {α : Type} (k : String) (v : α) (m : List (String × α)) : List (String × α) :=
  if (lookupKey k m).isSome then updateKey k (fun _ => v) m else m ++ [(k, v)]

/-- Performs `delete obj[k]`. -/
def removeKey {α : Type} (k : String) (m : List (String × α)) : List (String × α) :=
  m.filter (fun p => p.1 ≠ k)

/-- Performs `set.add(x)`. -/
def setAdd (x : String) (s : List String) : List String :=
  if x ∈ s then s else s ++ [x]

/-- Performs `obj[k] = (obj[k] || 0) + 1`. -/
def bumpCount (m : List (String × Nat)) (k : String) : List (String × Nat) :=
  setKey k (((lookupKey k m).getD 0) + 1) m

/-! ### The accumulator state (source lines 28-46) -/

/-- One entry of `metrics.timeIntervals` (source lines 74-79). -/
structure IntervalCounts where
  messages : Nat
  cacheHits : Nat
  jobs : Nat
  stores : Nat
deriving Repr, DecidableEq

/-- One entry of `metrics.wabaMessageMap` (source lines 121-125). -/
structure WabaData where
  messageIds : List String
  wamids : List String
  count : Nat
deriving Repr, DecidableEq

/-- One entry of `metrics.messagesToStore` (source lines 132-136). -/
structure Pending where
  wabaNumber : String
  msgId : String
  sentTimestamp : Option String
deriving Repr, DecidableEq

/-- One entry of `metrics.errors` / `metrics.warnings`. -/
structure ErrorRecord where
  timestamp : String
  message : String
deriving Repr, DecidableEq

/-- One entry of `metrics.processingTimes` (source lines 164-169). -/
structure ProcRecord where
  wamid : String
  msgId : String
  wabaNumber : String
  processingTimeMs : Int
deriving Repr, DecidableEq

/-- The `metrics` accumulator (source lines 28-46).  `startTime`/`endTime`
hold the millisecond value of the `Date` object. -/
structure Metrics where
  startTime : Option Int := none
  endTime : Option Int := none
  completedJobs : Nat := 0
  cacheHits : Nat := 0
  messagesSent : Nat := 0
  storeOperations : Nat := 0
  errors : List ErrorRecord := []
  warnings : List ErrorRecord := []
  logLevels : List (String × Nat) := []
  uniqueWabaNumbers : List String := []
  messageIds : List String := []
  wamids : List String := []
  jobIds : List String := []
  wabaMessageMap : List (String × WabaData) := []
  timeIntervals : List (String × IntervalCounts) := []
  processingTimes : List ProcRecord := []
  messagesToStore : List (String × Pending) := []
deriving Repr, DecidableEq

/-- The initial accumulator. -/
def initMetrics : Metrics := {}

/-! ### The per-line fold (source lines 56-201)

The loop body tries the five patterns in sequence on the same line; each
branch is embedded as one function and `step` is their composition in source
order. -/

/-- Source lines 58-88: the `logLevelMatch` branch.  Mutually exclusive
guards `if error / else if warn` are rendered as two independent
conditionals. -/
def stepLogLevel (m : Metrics) (line : String) : Metrics :=
  match logLevelMatch line with
  | none => m
  | some (timestamp, rawLevel) =>
    let level := rawLevel.toLower
    let logTime := dateMs timestamp
    let timeKey := minuteKey timestamp
    { m with
      logLevels := bumpCount m.logLevels level,
      startTime := some (match m.startTime with
        | none => logTime
        | some s => if logTime < s then logTime else s),
      endTime := some (match m.endTime with
        | none => logTime
        | some e => if e < logTime then logTime else e),
      timeIntervals := insertIfAbsent timeKey ⟨0, 0, 0, 0⟩ m.timeIntervals,
      errors := if level = "error" then m.errors ++ [⟨timestamp, line⟩] else m.errors,
      warnings := if level = "warn" then m.warnings ++ [⟨timestamp, line⟩] else m.warnings }

/-- The repeated `Update time interval metrics` block (source lines 96-103,
138-145, 176-183, 192-199): bump one counter of the line's minute bucket,
but only when that bucket already exists. -/
def tickInterval (fld : IntervalCounts → IntervalCounts) (tsOpt : Option String)
    (ti : List (String × IntervalCounts)) : List (String × IntervalCounts) :=
  match tsOpt with
  | some ts =>
    if (lookupKey (minuteKey ts) ti).isSome then updateKey (minuteKey ts) fld ti else ti
  | none => ti

/-- Source lines 91-104: the `jobMatch` branch. -/
def stepJob (m : Metrics) (line : String) : Metrics :=
  match jobMatch line with
  | none => m
  | some jobId =>
    { m with
      completedJobs := m.completedJobs + 1,
      jobIds := setAdd jobId m.jobIds,
      timeIntervals := tickInterval (fun c => { c with jobs := c.jobs + 1 })
        (timestampMatch line) m.timeIntervals }

/-- Source lines 107-146: the `messageMatch` branch. -/
def stepMessage (m : Metrics) (line : String) : Metrics :=
  match messageMatch line with
  | none => m
  | some (wabaNumber, _identifier, wamid, msgId) =>
    { m with
      messagesSent := m.messagesSent + 1,
      uniqueWabaNumbers := setAdd wabaNumber m.uniqueWabaNumbers,
      wamids := setAdd wamid m.wamids,
      messageIds := setAdd msgId m.messageIds,
      wabaMessageMap :=
        updateKey wabaNumber
          (fun d => { d with
            messageIds := setAdd msgId d.messageIds,
            wamids := setAdd wamid d.wamids,
            count := d.count + 1 })
          (insertIfAbsent wabaNumber ⟨[], [], 0⟩ m.wabaMessageMap),
      messagesToStore :=
        setKey wamid ⟨wabaNumber, msgId, timestampMatch line⟩ m.messagesToStore,
      timeIntervals := tickInterval (fun c => { c with messages := c.messages + 1 })
        (timestampMatch line) m.timeIntervals }

/-- Source lines 149-184: the `storeMatch` branch. -/
def stepStore (m : Metrics) (line : String) : Metrics :=
  match storeMatch line with
  | none => m
  | some (wabaNumber, wamid, msgId) =>
    { m with
      storeOperations := m.storeOperations + 1,
      processingTimes := match lookupKey wamid m.messagesToStore with
        | some pending =>
          match pending.sentTimestamp, timestampMatch line with
          | some sentTime, some storeTime =>
            m.processingTimes ++ [⟨wamid, msgId, wabaNumber, dateMs storeTime - dateMs sentTime⟩]
          | _, _ => m.processingTimes
        | none => m.processingTimes,
      messagesToStore :=
        if (lookupKey wamid m.messagesToStore).isSome then removeKey wamid m.messagesToStore
        else m.messagesToStore,
      timeIntervals := tickInterval (fun c => { c with stores := c.stores + 1 })
        (timestampMatch line) m.timeIntervals }

/-- Source lines 187-200: the `cacheMatch` branch. -/
def stepCache (m : Metrics) (line : String) : Metrics :=
  match cacheMatch line with
  | none => m
  | some wabaNumber =>
    { m with
      cacheHits := m.cacheHits + 1,
      uniqueWabaNumbers := setAdd wabaNumber m.uniqueWabaNumbers,
      timeIntervals := tickInterval (fun c => { c with cacheHits := c.cacheHits + 1 })
        (timestampMatch line) m.timeIntervals }

/-- One iteration of the loop body (source lines 56-201). -/
def step (m : Metrics) (line : String) : Metrics :=
  stepCache (stepStore (stepMessage (stepJob (stepLogLevel m line) line) line) line) line

/-- The whole scan: fold the loop body over the file's lines in order. -/
def processLines (lines : List String) : Metrics := lines.foldl step initMetrics

/-! ### JavaScript numbers

The derived-metrics stage divides counters; JavaScript division is IEEE-754
and is nowhere guarded in the source.  `JsNum` models the values exactly:
finite values as rationals (the source only divides integers, so no rounding
is involved in the classification facts proved below) plus the special
values. -/

/-- A JavaScript number: a finite rational or an IEEE special value. -/
inductive JsNum where
  | finite (q : ℚ)
  | posInf
  | negInf
  | nan
deriving Repr, DecidableEq

/-- IEEE-754 division as performed by the `/` operator. -/
def jsDiv : JsNum → JsNum → JsNum
  | .finite a, .finite b =>
    if b = 0 then (if a = 0 then .nan else if 0 < a then .posInf else .negInf)
    else .finite (a / b)
  | .finite _, .posInf => .finite 0
  | .finite _, .negInf => .finite 0
  | .posInf, .finite b => if 0 ≤ b then .posInf else .negInf
  | .negInf, .finite b => if 0 ≤ b then .negInf else .posInf
  | _, _ => .nan

/-- IEEE-754 multiplication as performed by the `*` operator. -/
def jsMul : JsNum → JsNum → JsNum
  | .finite a, .finite b => .finite (a * b)
  | .finite a, .posInf => if a = 0 then .nan else if 0 < a then .posInf else .negInf
  | .finite a, .negInf => if a = 0 then .nan else if 0 < a then .negInf else .posInf
  | .posInf, .finite b => if b = 0 then .nan else if 0 < b then .posInf else .negInf
  | .negInf, .finite b => if b = 0 then .nan else if 0 < b then .negInf else .posInf
  | .posInf, .posInf => .posInf
  | .posInf, .negInf => .negInf
  | .negInf, .posInf => .negInf
  | .negInf, .negInf => .posInf
  | _, _ => .nan

/-- A field holding either a number or the literal string `'N/A'`
(source lines 293-294). -/
inductive NumOrNA where
  | num (x : Int)
  | na
deriving Repr, DecidableEq

/-! ### The derived report (source lines 245-311)

String formatting (`toFixed`, `toISOString`) is presentation and is elided:
each formatted field carries the numeric value the source formats. -/

/-- Field `duration` (source lines 248-252). -/
structure DurationReport where
  milliseconds : Int
  seconds : JsNum
  minutes : JsNum
deriving Repr, DecidableEq

/-- Field `messages` (source lines 253-257). -/
structure MessagesReport where
  total : Nat
  perSecond : JsNum
  successRate : JsNum
deriving Repr, DecidableEq

/-- Field `jobs` (source lines 258-262). -/
structure JobsReport where
  total : Nat
  unique : Nat
  perSecond : JsNum
deriving Repr, DecidableEq

/-- One value of `wabaNumbers.messageDistribution` (source lines 269-274). -/
structure WabaDistEntry where
  messages : Nat
  uniqueMessageIds : Nat
  uniqueWamids : Nat
  percentOfTotal : JsNum
deriving Repr, DecidableEq

/-- Field `wabaNumbers` (source lines 263-277). -/
structure WabaReport where
  list : List String
  count : Nat
  messageDistribution : List (String × WabaDistEntry)
deriving Repr, DecidableEq

/-- Field `cacheMetrics` (source lines 278-281). -/
structure CacheReport where
  hits : Nat
  hitsPerWabaNumber : JsNum
deriving Repr, DecidableEq

/-- Fields `messageIds` / `wamids` (source lines 283-290). -/
structure IdsReport where
  unique : Nat
  ratio : JsNum
deriving Repr, DecidableEq

/-- Field `processing` (source lines 291-296). -/
structure ProcessingReport where
  avgTimeMs : JsNum
  minTimeMs : NumOrNA
  maxTimeMs : NumOrNA
  measuredMessages : Nat
deriving Repr, DecidableEq

/-- One entry of `throughput.intervals` (source lines 300-306). -/
structure IntervalReport where
  timeWindow : String
  messages : Nat
  cacheHits : Nat
  jobs : Nat
  stores : Nat
deriving Repr, DecidableEq

/-- Field `throughput` (source lines 297-307). -/
structure ThroughputReport where
  peakMessagesPerMinute : Nat
  peakInterval : String
  intervals : List IntervalReport
deriving Repr, DecidableEq

/-- The full derived report (source lines 245-311).  `startTimeMs`/`endTimeMs`
hold the instants whose ISO rendering the source emits. -/
structure Report where
  startTimeMs : Int
  endTimeMs : Int
  duration : DurationReport
  messages : MessagesReport
  jobs : JobsReport
  wabaNumbers : WabaReport
  cacheMetrics : CacheReport
  storeOperations : Nat
  messageIds : IdsReport
  wamids : IdsReport
  processing : ProcessingReport
  throughput : ThroughputReport
  logLevels : List (String × Nat)
  errors : List ErrorRecord
  warnings : List ErrorRecord
deriving Repr, DecidableEq

/-- Insert into a lexicographically sorted list. -/
def insertSorted (x : String) : List String → List String
  | [] => [x]
  | y :: ys => if x ≤ y then x :: y :: ys else y :: insertSorted x ys

/-- Computes `Object.keys(obj).sort()`: default JavaScript sort is lexicographic. -/
def sortKeys (l : List String) : List String := l.foldr insertSorted []

/-- The report body (source lines 210-311), computed once the start/end
guard has passed with `st`/`en` the two bounds. -/
def buildReport (m : Metrics) (st en : Int) : Report :=
  let durationMs := en - st
  let durationSeconds : JsNum := .finite ((durationMs : ℚ) / 1000)
  let totalProcessingTime : Int :=
    m.processingTimes.foldl (fun acc it => acc + it.processingTimeMs) 0
  let minProcessingTime : Int :=
    m.processingTimes.foldl (fun acc it => min acc it.processingTimeMs) 9007199254740991
  let maxProcessingTime : Int :=
    m.processingTimes.foldl (fun acc it => max acc it.processingTimeMs) 0
  let avgProcessingTime : JsNum :=
    if 0 < m.processingTimes.length then
      .finite ((totalProcessingTime : ℚ) / (m.processingTimes.length : ℚ))
    else .finite 0
  let sortedKeys := sortKeys (m.timeIntervals.map (·.1))
  let peak : Nat × String := sortedKeys.foldl (fun p k =>
    let c := (lookupKey k m.timeIntervals).getD ⟨0, 0, 0, 0⟩
    if p.1 < c.messages then (c.messages, k) else p) (0, "")
  let successRate : ℚ :=
    if 0 < m.messagesSent then ((m.storeOperations : ℚ) / (m.messagesSent : ℚ)) * 100 else 0
  { startTimeMs := st
    endTimeMs := en
    duration := { milliseconds := durationMs, seconds := durationSeconds,
                  minutes := jsDiv durationSeconds (.finite 60) }
    messages := { total := m.messagesSent,
                  perSecond := jsDiv (.finite (m.messagesSent : ℚ)) durationSeconds,
                  successRate := .finite successRate }
    jobs := { total := m.completedJobs, unique := m.jobIds.length,
              perSecond := jsDiv (.finite (m.completedJobs : ℚ)) durationSeconds }
    wabaNumbers := { list := m.uniqueWabaNumbers, count := m.uniqueWabaNumbers.length,
                     messageDistribution := m.wabaMessageMap.map (fun p =>
                       (p.1,
                        { messages := p.2.count,
                          uniqueMessageIds := p.2.messageIds.length,
                          uniqueWamids := p.2.wamids.length,
                          percentOfTotal :=
                            jsMul (jsDiv (.finite (p.2.count : ℚ))
                                (.finite (m.messagesSent : ℚ))) (.finite 100) })) }
    cacheMetrics := { hits := m.cacheHits,
                      hitsPerWabaNumber :=
                        jsDiv (.finite (m.cacheHits : ℚ))
                          (.finite (m.uniqueWabaNumbers.length : ℚ)) }
    storeOperations := m.storeOperations
    messageIds := { unique := m.messageIds.length,
                    ratio := jsDiv (.finite (m.messageIds.length : ℚ))
                      (.finite (m.messagesSent : ℚ)) }
    wamids := { unique := m.wamids.length,
                ratio := jsDiv (.finite (m.wamids.length : ℚ))
                  (.finite (m.messagesSent : ℚ)) }
    processing := { avgTimeMs := avgProcessingTime,
                    minTimeMs := if m.processingTimes.length ≠ 0 then .num minProcessingTime
                      else .na,
                    maxTimeMs := if m.processingTimes.length ≠ 0 then .num maxProcessingTime
                      else .na,
                    measuredMessages := m.processingTimes.length }
    throughput := { peakMessagesPerMinute := peak.1, peakInterval := peak.2,
                    intervals := sortedKeys.map (fun k =>
                      let c := (lookupKey k m.timeIntervals).getD ⟨0, 0, 0, 0⟩
                      { timeWindow := k, messages := c.messages, cacheHits := c.cacheHits,
                        jobs := c.jobs, stores := c.stores }) }
    logLevels := m.logLevels
    errors := m.errors
    warnings := m.warnings }

/-- Source lines 204-312: the derived-metrics calculation.  The
`process.exit(1)` on a missing start/end bound is modelled as
`Except.error`. -/
def calculateMetrics (m : Metrics) : Except String Report :=
  match m.startTime, m.endTime with
  | some st, some en => Except.ok (buildReport m st en)
  | _, _ => Except.error ("No valid timestamps found in log.")

/-- An output artifact of the reporting stage (source lines 318-346). -/
inductive Artifact where
  | jsonFile (r : Report)
  | consoleSummary (r : Report)
  | htmlFile (r : Report)
deriving Repr, DecidableEq

/-- The artifacts written for a given `--output` format (source lines
318-346): `json`, `console`, `html`, with `all` producing every one. -/
def outputsFor (fmt : String) (r : Report) : List Artifact :=
  (if fmt = "json" ∨ fmt = "all" then [Artifact.jsonFile r] else []) ++
  (if fmt = "console" ∨ fmt = "all" then [Artifact.consoleSummary r] else []) ++
  (if fmt = "html" ∨ fmt = "all" then [Artifact.htmlFile r] else [])

/-- The pipeline after argument parsing: scan the lines, derive the metrics,
and write the artifacts; a fatal `calculateMetrics` error aborts before any
artifact is produced (the process exits nonzero). -/
def runMain (lines : List String) (fmt : String) : Except String (List Artifact) :=
  (calculateMetrics (processLines lines)).map (outputsFor fmt)

/-! ### JSON-mode line parsing (modelled from the spec)

The specification describes a second, JSON-envelope parsing mode (spec
section 4.1, 7 and scenario C): lines that are JSON objects with fields
`level`, `message`, `@timestamp`, `logger_name`; a nested callback payload
is pattern-matched only when `logger_name` contains a designated marker and
the decoded payload's `status` equals `"read"`; malformed JSON lines are
skipped with a reported parse failure.  No such code exists in `src/`
(`src/log-metrics.js` contains only the plain-text regex loop), so this
mode is modelled here from the spec's words. -/

/-- Modelled from the spec: the JSON envelope `{level, message, @timestamp,
logger_name}` of a well-formed JSON log line (spec section 4.1/6). -/
structure JsonEnvelope where
  level : String
  message : String
  timestamp : String
  logger_name : String
deriving Repr, DecidableEq

/-- Modelled from the spec: the decode outcome of the embedded callback
payload (spec section 4.1): absent, malformed (recovered, sub-event
skipped), or decoded with a `status` field and the `MessageSent` fields
`metadata.phone_number_id`, `statuses[0].id` and the message id unpacked
from `biz_opaque_callback_data`. -/
inductive PayloadDecode where
  | absent
  | malformed
  | decoded (status : String) (wabaNumber : String) (transportId : String) (messageId : String)
deriving Repr, DecidableEq

/-- Modelled from the spec: one input line in JSON mode, as seen after the
envelope decode attempt — either malformed JSON or a decoded envelope
together with its embedded payload decode outcome. -/
inductive JsonLineInput where
  | malformed (raw : String)
  | envelope (env : JsonEnvelope) (payload : PayloadDecode)
deriving Repr, DecidableEq

/-- Modelled from the spec: an event extracted in JSON mode (spec section 3:
a `LogLine` from the envelope, a `MessageSent` from the callback payload). -/
inductive JsonEvent where
  | logLine (level : String) (timestamp : String)
  | messageSent (wabaNumber : String) (transportId : String) (messageId : String)
deriving Repr, DecidableEq

/-- Prefix test on character lists. -/
def isPrefixList : List Char → List Char → Bool
  | [], _ => true
  | _ :: _, [] => false
  | c :: cs, d :: ds => c == d && isPrefixList cs ds

/-- Substring test (`logger_name` "contains a designated marker"). -/
def containsSubstring (s pat : String) : Bool :=
  (scan (fun r => if isPrefixList pat.data r then some () else none) s.data).isSome

/-- Modelled from the spec: parse one JSON-mode line.  A malformed line
yields a reported parse failure; a well-formed line yields its `LogLine`
event plus a `MessageSent` event exactly when `logger_name` contains the
marker and the decoded payload's `status` equals `"read"` (spec section
4.1). -/
def jsonLineEvents (marker : String) : JsonLineInput → Except String (List JsonEvent)
  | .malformed raw => Except.error ("JSON parse failure: " ++ raw)
  | .envelope env payload =>
    Except.ok ([JsonEvent.logLine env.level env.timestamp] ++
      (if containsSubstring env.logger_name marker then
        match payload with
        | .decoded status w t g => if status = "read" then [JsonEvent.messageSent w t g] else []
        | _ => []
      else []))

/-- Modelled from the spec: process all JSON-mode lines, returning the
extracted events and the reported parse failures; a malformed line is
skipped and processing continues with the next line (spec section 4.1/7 —
no line failure is fatal). -/
def processJsonLines (marker : String) : List JsonLineInput → List JsonEvent × List String
  | [] => ([], [])
  | l :: rest =>
    match jsonLineEvents marker l with
    | .ok es => (es ++ (processJsonLines marker rest).1, (processJsonLines marker rest).2)
    | .error f => ((processJsonLines marker rest).1, f :: (processJsonLines marker rest).2)

/-! ### Concrete sample lines used by witnesses and counterexamples -/

/-- A message-sent line in the standard `timestamp level:` format. -/
def sendLine : String :=
  "2025-05-16 10:00:00 info: wabaNumber 111 ::: 1 ::: Completed successfully with wamid: ab1 ::: Clevertap MsgID: A-1"

/-- A matching store line two seconds later, standard format. -/
def storeLine : String :=
  "2025-05-16 10:00:02 info: 111 ::: CleverTapStoreWamidMsgidService: ab1 ::: A-1 stored successfully"

/-- A plain log-level line with no event payload. -/
def plainLogLine : String := "2025-05-16 10:00:00 info: service started"

/-- A message-sent line with no timestamp at all. -/
def bareSendLine : String :=
  "wabaNumber 111 ::: 1 ::: Completed successfully with wamid: ab1 ::: Clevertap MsgID: A-1"

/-- A store line with no timestamp at all. -/
def bareStoreLine : String :=
  "111 ::: CleverTapStoreWamidMsgidService: ab1 ::: A-1 stored successfully"

/-- A message-sent line carrying a timestamp but no `level:` marker. -/
def tsSendLine : String :=
  "2025-05-16 10:01:00 wabaNumber 111 ::: 1 ::: Completed successfully with wamid: ab1 ::: Clevertap MsgID: A-1"

/-- A job-completion line carrying a timestamp but no `level:` marker. -/
def tsJobLine : String := "2025-05-16 10:02:00 Job ID 42 completed successfully"

/-- The timestamp carried by `sendLine` and `plainLogLine`. -/
def sendTs : String := "2025-05-16 10:00:00"

/-- The timestamp carried by `storeLine`. -/
def storeTs : String := "2025-05-16 10:00:02"

/-- Sum of a numeric projection over an association list's values. -/
def sumBy {α : Type} (f : α → Nat) (l : List (String × α)) : Nat :=
  (l.map (fun p => f p.2)).sum

/-- A message-sent line is covered when it either is no message line at all
or also matches the log-level pattern with the same timestamp that
`timestampRegex` finds (the ordinary `timestamp level: payload` layout, in
which the log-level branch has created the line's minute bucket before the
message branch increments it). -/
def msgLineCovered (l : String) : Bool :=
  (messageMatch l).isNone ||
  (match logLevelMatch l, timestampMatch l with
   | some (ts, _), some ts2 => ts == ts2
   | _, _ => false)

/-- The sum of the per-WABA occurrence counters. -/
def wabaCountSum (map : List (String × WabaData)) : Nat :=
  sumBy (fun d => d.count) map

/-! ### Association-list lemmas -/

theorem lookupKey_isSome_updateKey {α : Type} (k k2 : String) (g : α → α)
    (l : List (String × α)) :
    (lookupKey k2 (updateKey k g l)).isSome = (lookupKey k2 l).isSome := by
  induction l with
  | nil => rfl
  | cons p rest ih =>
    obtain ⟨k3, v⟩ := p
    simp only [updateKey]
    split
    · by_cases h2 : k3 = k2 <;> simp [lookupKey, h2]
    · by_cases h2 : k3 = k2 <;> simp [lookupKey, h2, ih]

theorem keys_updateKey {α : Type} (k : String) (g : α → α) (l : List (String × α)) :
    (updateKey k g l).map (fun p => p.1) = l.map (fun p => p.1) := by
  induction l with
  | nil => rfl
  | cons p rest ih =>
    obtain ⟨k3, v⟩ := p
    by_cases h : k3 = k <;> simp [updateKey, h, ih]

theorem sum_map_updateKey_congr {α : Type} (f : α → Nat) (g : α → α) (k : String)
    (l : List (String × α)) (h : ∀ a, f (g a) = f a) :
    ((updateKey k g l).map (fun p => f p.2)).sum = (l.map (fun p => f p.2)).sum := by
  induction l with
  | nil => rfl
  | cons p rest ih =>
    obtain ⟨k3, v⟩ := p
    by_cases hk : k3 = k <;> simp [updateKey, hk, ih, h]

theorem sum_map_updateKey_bump {α : Type} (f : α → Nat) (g : α → α) (k : String)
    (l : List (String × α)) (h : ∀ a, f (g a) = f a + 1)
    (hk : (lookupKey k l).isSome = true) :
    ((updateKey k g l).map (fun p => f p.2)).sum = (l.map (fun p => f p.2)).sum + 1 := by
  induction l with
  | nil => simp [lookupKey] at hk
  | cons p rest ih =>
    obtain ⟨k3, v⟩ := p
    by_cases hke : k3 = k
    · simp [updateKey, hke, h]
      omega
    · simp [lookupKey, hke] at hk
      simp [updateKey, hke, ih hk]
      omega

theorem sum_map_insertIfAbsent {α : Type} (f : α → Nat) (k : String) (v : α)
    (l : List (String × α)) (hv : f v = 0) :
    ((insertIfAbsent k v l).map (fun p => f p.2)).sum = (l.map (fun p => f p.2)).sum := by
  unfold insertIfAbsent
  split <;> simp [hv]

theorem lookupKey_append_single {α : Type} (k k2 : String) (v : α) (l : List (String × α)) :
    lookupKey k (l ++ [(k2, v)]) =
      match lookupKey k l with
      | some x => some x
      | none => if k2 = k then some v else none := by
  induction l with
  | nil => simp [lookupKey]
  | cons p rest ih =>
    obtain ⟨k3, w⟩ := p
    by_cases h : k3 = k <;> simp [lookupKey, h, ih]

theorem lookupKey_insertIfAbsent_self {α : Type} (k : String) (v : α)
    (l : List (String × α)) :
    (lookupKey k (insertIfAbsent k v l)).isSome = true := by
  unfold insertIfAbsent
  by_cases h : (lookupKey k l).isSome = true
  · simp [h]
  · have hnone : lookupKey k l = none := by
      cases hl : lookupKey k l with
      | none => rfl
      | some x => simp [hl] at h
    rw [hnone]
    simp only [Option.isSome_none, Bool.false_eq_true, if_false]
    rw [lookupKey_append_single, hnone]
    simp

theorem keys_insertIfAbsent {α : Type} (k : String) (v : α) (l : List (String × α)) :
    (insertIfAbsent k v l).map (fun p => p.1) = l.map (fun p => p.1) ∨
    (insertIfAbsent k v l).map (fun p => p.1) = l.map (fun p => p.1) ++ [k] := by
  unfold insertIfAbsent
  split
  · exact Or.inl rfl
  · exact Or.inr (by simp)

theorem lookupKey_removeKey_self {α : Type} (k : String) (l : List (String × α)) :
    lookupKey k (removeKey k l) = none := by
  induction l with
  | nil => rfl
  | cons p rest ih =>
    obtain ⟨k3, v⟩ := p
    by_cases h : k3 = k <;> simp [removeKey, lookupKey, h] at ih ⊢ <;> simp [lookupKey, h, ih]

theorem setAdd_ne_nil (x : String) (s : List String) : setAdd x s ≠ [] := by
  unfold setAdd
  by_cases h : x ∈ s
  · simp only [if_pos h]
    intro hs
    subst hs
    simp at h
  · simp [if_neg h]

/-! ### Interval-bucket lemmas -/

theorem keys_tickInterval (fld : IntervalCounts → IntervalCounts) (tsOpt : Option String)
    (ti : List (String × IntervalCounts)) :
    (tickInterval fld tsOpt ti).map (fun p => p.1) = ti.map (fun p => p.1) := by
  unfold tickInterval
  cases tsOpt with
  | none => rfl
  | some ts =>
    by_cases h : (lookupKey (minuteKey ts) ti).isSome = true <;>
      simp [h, keys_updateKey]

theorem lookupKey_isSome_tickInterval (fld : IntervalCounts → IntervalCounts)
    (tsOpt : Option String) (k : String) (ti : List (String × IntervalCounts)) :
    (lookupKey k (tickInterval fld tsOpt ti)).isSome = (lookupKey k ti).isSome := by
  unfold tickInterval
  cases tsOpt with
  | none => rfl
  | some ts =>
    by_cases h : (lookupKey (minuteKey ts) ti).isSome = true <;>
      simp [h, lookupKey_isSome_updateKey]

/-- The sum of the per-bucket message counters. -/
def bucketMsgSum (ti : List (String × IntervalCounts)) : Nat :=
  sumBy (fun c => c.messages) ti

theorem sumBy_updateKey_congr {α : Type} (f : α → Nat) (g : α → α) (k : String)
    (l : List (String × α)) (h : ∀ a, f (g a) = f a) :
    sumBy f (updateKey k g l) = sumBy f l :=
  sum_map_updateKey_congr f g k l h

theorem sumBy_updateKey_bump {α : Type} (f : α → Nat) (g : α → α) (k : String)
    (l : List (String × α)) (h : ∀ a, f (g a) = f a + 1)
    (hk : (lookupKey k l).isSome = true) :
    sumBy f (updateKey k g l) = sumBy f l + 1 :=
  sum_map_updateKey_bump f g k l h hk

theorem sumBy_insertIfAbsent {α : Type} (f : α → Nat) (k : String) (v : α)
    (l : List (String × α)) (hv : f v = 0) :
    sumBy f (insertIfAbsent k v l) = sumBy f l :=
  sum_map_insertIfAbsent f k v l hv

theorem bucketMsgSum_tickInterval_congr (fld : IntervalCounts → IntervalCounts)
    (tsOpt : Option String) (ti : List (String × IntervalCounts))
    (h : ∀ c, (fld c).messages = c.messages) :
    bucketMsgSum (tickInterval fld tsOpt ti) = bucketMsgSum ti := by
  unfold tickInterval bucketMsgSum
  cases tsOpt with
  | none => rfl
  | some ts =>
    by_cases hk : (lookupKey (minuteKey ts) ti).isSome = true <;>
      simp [hk, sumBy_updateKey_congr _ _ _ _ h]

theorem bucketMsgSum_insertIfAbsent (k : String) (ti : List (String × IntervalCounts)) :
    bucketMsgSum (insertIfAbsent k ⟨0, 0, 0, 0⟩ ti) = bucketMsgSum ti :=
  sumBy_insertIfAbsent _ _ _ _ rfl

/-! ### Projections of the five loop branches -/

theorem stepLogLevel_none {m : Metrics} {line : String} (h : logLevelMatch line = none) :
    stepLogLevel m line = m := by
  unfold stepLogLevel
  rw [h]

theorem stepJob_none {m : Metrics} {line : String} (h : jobMatch line = none) :
    stepJob m line = m := by
  unfold stepJob
  rw [h]

theorem stepMessage_none {m : Metrics} {line : String} (h : messageMatch line = none) :
    stepMessage m line = m := by
  unfold stepMessage
  rw [h]

theorem stepStore_none {m : Metrics} {line : String} (h : storeMatch line = none) :
    stepStore m line = m := by
  unfold stepStore
  rw [h]

theorem stepCache_none {m : Metrics} {line : String} (h : cacheMatch line = none) :
    stepCache m line = m := by
  unfold stepCache
  rw [h]

theorem stepLogLevel_timeIntervals (m : Metrics) (line : String) :
    (stepLogLevel m line).timeIntervals =
      match logLevelMatch line with
      | none => m.timeIntervals
      | some (ts, _) => insertIfAbsent (minuteKey ts) ⟨0, 0, 0, 0⟩ m.timeIntervals := by
  unfold stepLogLevel
  cases h : logLevelMatch line with
  | none => rfl
  | some p =>
    obtain ⟨ts, lvl⟩ := p
    rfl

theorem stepLogLevel_startTime (m : Metrics) (line : String) :
    (stepLogLevel m line).startTime =
      match logLevelMatch line with
      | none => m.startTime
      | some (ts, _) => some (match m.startTime with
          | none => dateMs ts
          | some s => if dateMs ts < s then dateMs ts else s) := by
  unfold stepLogLevel
  cases h : logLevelMatch line with
  | none => rfl
  | some p =>
    obtain ⟨ts, lvl⟩ := p
    rfl

theorem stepLogLevel_endTime (m : Metrics) (line : String) :
    (stepLogLevel m line).endTime =
      match logLevelMatch line with
      | none => m.endTime
      | some (ts, _) => some (match m.endTime with
          | none => dateMs ts
          | some e => if e < dateMs ts then dateMs ts else e) := by
  unfold stepLogLevel
  cases h : logLevelMatch line with
  | none => rfl
  | some p =>
    obtain ⟨ts, lvl⟩ := p
    rfl

theorem stepLogLevel_messagesSent (m : Metrics) (line : String) :
    (stepLogLevel m line).messagesSent = m.messagesSent := by
  unfold stepLogLevel
  cases h : logLevelMatch line with
  | none => rfl
  | some p =>
    obtain ⟨ts, lvl⟩ := p
    rfl

theorem stepLogLevel_cacheHits (m : Metrics) (line : String) :
    (stepLogLevel m line).cacheHits = m.cacheHits := by
  unfold stepLogLevel
  cases h : logLevelMatch line with
  | none => rfl
  | some p =>
    obtain ⟨ts, lvl⟩ := p
    rfl

theorem stepLogLevel_uniqueWabaNumbers (m : Metrics) (line : String) :
    (stepLogLevel m line).uniqueWabaNumbers = m.uniqueWabaNumbers := by
  unfold stepLogLevel
  cases h : logLevelMatch line with
  | none => rfl
  | some p =>
    obtain ⟨ts, lvl⟩ := p
    rfl

theorem stepLogLevel_wabaMessageMap (m : Metrics) (line : String) :
    (stepLogLevel m line).wabaMessageMap = m.wabaMessageMap := by
  unfold stepLogLevel
  cases h : logLevelMatch line with
  | none => rfl
  | some p =>
    obtain ⟨ts, lvl⟩ := p
    rfl

theorem stepLogLevel_messagesToStore (m : Metrics) (line : String) :
    (stepLogLevel m line).messagesToStore = m.messagesToStore := by
  unfold stepLogLevel
  cases h : logLevelMatch line with
  | none => rfl
  | some p =>
    obtain ⟨ts, lvl⟩ := p
    rfl

theorem stepLogLevel_processingTimes (m : Metrics) (line : String) :
    (stepLogLevel m line).processingTimes = m.processingTimes := by
  unfold stepLogLevel
  cases h : logLevelMatch line with
  | none => rfl
  | some p =>
    obtain ⟨ts, lvl⟩ := p
    rfl

theorem stepJob_timeIntervals (m : Metrics) (line : String) :
    (stepJob m line).timeIntervals =
      match jobMatch line with
      | none => m.timeIntervals
      | some _ => tickInterval (fun c => { c with jobs := c.jobs + 1 })
          (timestampMatch line) m.timeIntervals := by
  unfold stepJob
  cases h : jobMatch line <;> rfl

theorem stepJob_startTime (m : Metrics) (line : String) :
    (stepJob m line).startTime = m.startTime := by
  unfold stepJob
  cases h : jobMatch line <;> rfl

theorem stepJob_endTime (m : Metrics) (line : String) :
    (stepJob m line).endTime = m.endTime := by
  unfold stepJob
  cases h : jobMatch line <;> rfl

theorem stepJob_messagesSent (m : Metrics) (line : String) :
    (stepJob m line).messagesSent = m.messagesSent := by
  unfold stepJob
  cases h : jobMatch line <;> rfl

theorem stepJob_cacheHits (m : Metrics) (line : String) :
    (stepJob m line).cacheHits = m.cacheHits := by
  unfold stepJob
  cases h : jobMatch line <;> rfl

theorem stepJob_uniqueWabaNumbers (m : Metrics) (line : String) :
    (stepJob m line).uniqueWabaNumbers = m.uniqueWabaNumbers := by
  unfold stepJob
  cases h : jobMatch line <;> rfl

theorem stepJob_wabaMessageMap (m : Metrics) (line : String) :
    (stepJob m line).wabaMessageMap = m.wabaMessageMap := by
  unfold stepJob
  cases h : jobMatch line <;> rfl

theorem stepJob_messagesToStore (m : Metrics) (line : String) :
    (stepJob m line).messagesToStore = m.messagesToStore := by
  unfold stepJob
  cases h : jobMatch line <;> rfl

theorem stepJob_processingTimes (m : Metrics) (line : String) :
    (stepJob m line).processingTimes = m.processingTimes := by
  unfold stepJob
  cases h : jobMatch line <;> rfl

theorem stepMessage_startTime (m : Metrics) (line : String) :
    (stepMessage m line).startTime = m.startTime := by
  unfold stepMessage
  cases h : messageMatch line with
  | none => rfl
  | some p =>
    obtain ⟨w, p2⟩ := p
    obtain ⟨i, p3⟩ := p2
    obtain ⟨t, g⟩ := p3
    rfl

theorem stepMessage_endTime (m : Metrics) (line : String) :
    (stepMessage m line).endTime = m.endTime := by
  unfold stepMessage
  cases h : messageMatch line with
  | none => rfl
  | some p =>
    obtain ⟨w, p2⟩ := p
    obtain ⟨i, p3⟩ := p2
    obtain ⟨t, g⟩ := p3
    rfl

theorem stepMessage_cacheHits (m : Metrics) (line : String) :
    (stepMessage m line).cacheHits = m.cacheHits := by
  unfold stepMessage
  cases h : messageMatch line with
  | none => rfl
  | some p =>
    obtain ⟨w, p2⟩ := p
    obtain ⟨i, p3⟩ := p2
    obtain ⟨t, g⟩ := p3
    rfl

theorem stepMessage_processingTimes (m : Metrics) (line : String) :
    (stepMessage m line).processingTimes = m.processingTimes := by
  unfold stepMessage
  cases h : messageMatch line with
  | none => rfl
  | some p =>
    obtain ⟨w, p2⟩ := p
    obtain ⟨i, p3⟩ := p2
    obtain ⟨t, g⟩ := p3
    rfl

theorem stepStore_startTime (m : Metrics) (line : String) :
    (stepStore m line).startTime = m.startTime := by
  unfold stepStore
  cases h : storeMatch line with
  | none => rfl
  | some p =>
    obtain ⟨w, p2⟩ := p
    obtain ⟨t, g⟩ := p2
    rfl

theorem stepStore_endTime (m : Metrics) (line : String) :
    (stepStore m line).endTime = m.endTime := by
  unfold stepStore
  cases h : storeMatch line with
  | none => rfl
  | some p =>
    obtain ⟨w, p2⟩ := p
    obtain ⟨t, g⟩ := p2
    rfl

theorem stepStore_messagesSent (m : Metrics) (line : String) :
    (stepStore m line).messagesSent = m.messagesSent := by
  unfold stepStore
  cases h : storeMatch line with
  | none => rfl
  | some p =>
    obtain ⟨w, p2⟩ := p
    obtain ⟨t, g⟩ := p2
    rfl

theorem stepStore_cacheHits (m : Metrics) (line : String) :
    (stepStore m line).cacheHits = m.cacheHits := by
  unfold stepStore
  cases h : storeMatch line with
  | none => rfl
  | some p =>
    obtain ⟨w, p2⟩ := p
    obtain ⟨t, g⟩ := p2
    rfl

theorem stepStore_uniqueWabaNumbers (m : Metrics) (line : String) :
    (stepStore m line).uniqueWabaNumbers = m.uniqueWabaNumbers := by
  unfold stepStore
  cases h : storeMatch line with
  | none => rfl
  | some p =>
    obtain ⟨w, p2⟩ := p
    obtain ⟨t, g⟩ := p2
    rfl

theorem stepStore_wabaMessageMap (m : Metrics) (line : String) :
    (stepStore m line).wabaMessageMap = m.wabaMessageMap := by
  unfold stepStore
  cases h : storeMatch line with
  | none => rfl
  | some p =>
    obtain ⟨w, p2⟩ := p
    obtain ⟨t, g⟩ := p2
    rfl

theorem stepStore_timeIntervals (m : Metrics) (line : String) :
    (stepStore m line).timeIntervals =
      match storeMatch line with
      | none => m.timeIntervals
      | some _ => tickInterval (fun c => { c with stores := c.stores + 1 })
          (timestampMatch line) m.timeIntervals := by
  unfold stepStore
  cases h : storeMatch line with
  | none => rfl
  | some p =>
    obtain ⟨w, p2⟩ := p
    obtain ⟨t, g⟩ := p2
    rfl

theorem stepCache_startTime (m : Metrics) (line : String) :
    (stepCache m line).startTime = m.startTime := by
  unfold stepCache
  cases h : cacheMatch line <;> rfl

theorem stepCache_endTime (m : Metrics) (line : String) :
    (stepCache m line).endTime = m.endTime := by
  unfold stepCache
  cases h : cacheMatch line <;> rfl

theorem stepCache_messagesSent (m : Metrics) (line : String) :
    (stepCache m line).messagesSent = m.messagesSent := by
  unfold stepCache
  cases h : cacheMatch line <;> rfl

theorem stepCache_wabaMessageMap (m : Metrics) (line : String) :
    (stepCache m line).wabaMessageMap = m.wabaMessageMap := by
  unfold stepCache
  cases h : cacheMatch line <;> rfl

theorem stepCache_messagesToStore (m : Metrics) (line : String) :
    (stepCache m line).messagesToStore = m.messagesToStore := by
  unfold stepCache
  cases h : cacheMatch line <;> rfl

theorem stepCache_processingTimes (m : Metrics) (line : String) :
    (stepCache m line).processingTimes = m.processingTimes := by
  unfold stepCache
  cases h : cacheMatch line <;> rfl

theorem stepCache_timeIntervals (m : Metrics) (line : String) :
    (stepCache m line).timeIntervals =
      match cacheMatch line with
      | none => m.timeIntervals
      | some _ => tickInterval (fun c => { c with cacheHits := c.cacheHits + 1 })
          (timestampMatch line) m.timeIntervals := by
  unfold stepCache
  cases h : cacheMatch line <;> rfl

theorem stepCache_cacheHits (m : Metrics) (line : String) :
    (stepCache m line).cacheHits =
      m.cacheHits + (if (cacheMatch line).isSome then 1 else 0) := by
  unfold stepCache
  cases h : cacheMatch line <;> simp

theorem stepCache_uniqueWabaNumbers (m : Metrics) (line : String) :
    (stepCache m line).uniqueWabaNumbers =
      match cacheMatch line with
      | none => m.uniqueWabaNumbers
      | some w => setAdd w m.uniqueWabaNumbers := by
  unfold stepCache
  cases h : cacheMatch line <;> rfl

theorem stepMessage_messagesSent (m : Metrics) (line : String) :
    (stepMessage m line).messagesSent =
      m.messagesSent + (if (messageMatch line).isSome then 1 else 0) := by
  unfold stepMessage
  cases h : messageMatch line with
  | none => simp
  | some p =>
    obtain ⟨w, p2⟩ := p
    obtain ⟨i, p3⟩ := p2
    obtain ⟨t, g⟩ := p3
    simp

theorem stepMessage_timeIntervals (m : Metrics) (line : String) :
    (stepMessage m line).timeIntervals =
      match messageMatch line with
      | none => m.timeIntervals
      | some _ => tickInterval (fun c => { c with messages := c.messages + 1 })
          (timestampMatch line) m.timeIntervals := by
  unfold stepMessage
  cases h : messageMatch line with
  | none => rfl
  | some p =>
    obtain ⟨w, p2⟩ := p
    obtain ⟨i, p3⟩ := p2
    obtain ⟨t, g⟩ := p3
    rfl

theorem stepMessage_uniqueWabaNumbers (m : Metrics) (line : String) :
    (stepMessage m line).uniqueWabaNumbers =
      match messageMatch line with
      | none => m.uniqueWabaNumbers
      | some (w, _, _, _) => setAdd w m.uniqueWabaNumbers := by
  unfold stepMessage
  cases h : messageMatch line with
  | none => rfl
  | some p =>
    obtain ⟨w, p2⟩ := p
    obtain ⟨i, p3⟩ := p2
    obtain ⟨t, g⟩ := p3
    rfl

theorem stepMessage_wabaMessageMap (m : Metrics) (line : String) :
    (stepMessage m line).wabaMessageMap =
      match messageMatch line with
      | none => m.wabaMessageMap
      | some (w, _, t, g) =>
          updateKey w
            (fun d => { d with
              messageIds := setAdd g d.messageIds,
              wamids := setAdd t d.wamids,
              count := d.count + 1 })
            (insertIfAbsent w ⟨[], [], 0⟩ m.wabaMessageMap) := by
  unfold stepMessage
  cases h : messageMatch line with
  | none => rfl
  | some p =>
    obtain ⟨w, p2⟩ := p
    obtain ⟨i, p3⟩ := p2
    obtain ⟨t, g⟩ := p3
    rfl

theorem stepMessage_messagesToStore (m : Metrics) (line : String) :
    (stepMessage m line).messagesToStore =
      match messageMatch line with
      | none => m.messagesToStore
      | some (w, _, t, g) =>
          setKey t ⟨w, g, timestampMatch line⟩ m.messagesToStore := by
  unfold stepMessage
  cases h : messageMatch line with
  | none => rfl
  | some p =>
    obtain ⟨w, p2⟩ := p
    obtain ⟨i, p3⟩ := p2
    obtain ⟨t, g⟩ := p3
    rfl

theorem stepStore_processingTimes_eq {m : Metrics} {line : String}
    {w t g : String} (hs : storeMatch line = some (w, t, g)) :
    (stepStore m line).processingTimes =
      match lookupKey t m.messagesToStore with
      | some pending =>
        match pending.sentTimestamp, timestampMatch line with
        | some sentTime, some storeTime =>
          m.processingTimes ++ [⟨t, g, w, dateMs storeTime - dateMs sentTime⟩]
        | _, _ => m.processingTimes
      | none => m.processingTimes := by
  unfold stepStore
  rw [hs]

theorem stepStore_messagesToStore_eq {m : Metrics} {line : String}
    {w t g : String} (hs : storeMatch line = some (w, t, g)) :
    (stepStore m line).messagesToStore =
      if (lookupKey t m.messagesToStore).isSome then removeKey t m.messagesToStore
      else m.messagesToStore := by
  unfold stepStore
  rw [hs]

/-! ### Step-level composites -/

theorem step_startTime (m : Metrics) (l : String) :
    (step m l).startTime = (stepLogLevel m l).startTime := by
  unfold step
  rw [stepCache_startTime, stepStore_startTime, stepMessage_startTime, stepJob_startTime]

theorem step_endTime (m : Metrics) (l : String) :
    (step m l).endTime = (stepLogLevel m l).endTime := by
  unfold step
  rw [stepCache_endTime, stepStore_endTime, stepMessage_endTime, stepJob_endTime]

theorem step_startTime_none_iff (m : Metrics) (l : String) :
    (step m l).startTime = none ↔ (m.startTime = none ∧ logLevelMatch l = none) := by
  rw [step_startTime, stepLogLevel_startTime]
  cases h : logLevelMatch l with
  | none => simp
  | some p =>
    obtain ⟨ts, lvl⟩ := p
    simp

theorem step_endTime_none_iff (m : Metrics) (l : String) :
    (step m l).endTime = none ↔ (m.endTime = none ∧ logLevelMatch l = none) := by
  rw [step_endTime, stepLogLevel_endTime]
  cases h : logLevelMatch l with
  | none => simp
  | some p =>
    obtain ⟨ts, lvl⟩ := p
    simp

theorem step_messagesSent (m : Metrics) (l : String) :
    (step m l).messagesSent =
      m.messagesSent + (if (messageMatch l).isSome then 1 else 0) := by
  unfold step
  rw [stepCache_messagesSent, stepStore_messagesSent, stepMessage_messagesSent,
    stepJob_messagesSent, stepLogLevel_messagesSent]

theorem step_cacheHits (m : Metrics) (l : String) :
    (step m l).cacheHits = m.cacheHits + (if (cacheMatch l).isSome then 1 else 0) := by
  unfold step
  rw [stepCache_cacheHits, stepStore_cacheHits, stepMessage_cacheHits, stepJob_cacheHits,
    stepLogLevel_cacheHits]

theorem step_wabaMessageMap (m : Metrics) (l : String) :
    (step m l).wabaMessageMap = (stepMessage (stepJob (stepLogLevel m l) l) l).wabaMessageMap := by
  unfold step
  rw [stepCache_wabaMessageMap, stepStore_wabaMessageMap]

theorem keys_stepJob (m : Metrics) (l : String) :
    (stepJob m l).timeIntervals.map (fun p => p.1) = m.timeIntervals.map (fun p => p.1) := by
  rw [stepJob_timeIntervals]
  cases h : jobMatch l with
  | none => rfl
  | some j => exact keys_tickInterval _ _ _

theorem keys_stepMessage (m : Metrics) (l : String) :
    (stepMessage m l).timeIntervals.map (fun p => p.1) =
      m.timeIntervals.map (fun p => p.1) := by
  rw [stepMessage_timeIntervals]
  cases h : messageMatch l with
  | none => rfl
  | some x => exact keys_tickInterval _ _ _

theorem keys_stepStore (m : Metrics) (l : String) :
    (stepStore m l).timeIntervals.map (fun p => p.1) =
      m.timeIntervals.map (fun p => p.1) := by
  rw [stepStore_timeIntervals]
  cases h : storeMatch l with
  | none => rfl
  | some x => exact keys_tickInterval _ _ _

theorem keys_stepCache (m : Metrics) (l : String) :
    (stepCache m l).timeIntervals.map (fun p => p.1) =
      m.timeIntervals.map (fun p => p.1) := by
  rw [stepCache_timeIntervals]
  cases h : cacheMatch l with
  | none => rfl
  | some x => exact keys_tickInterval _ _ _

theorem step_keys (m : Metrics) (l : String) :
    (step m l).timeIntervals.map (fun p => p.1) =
      (stepLogLevel m l).timeIntervals.map (fun p => p.1) := by
  unfold step
  rw [keys_stepCache, keys_stepStore, keys_stepMessage, keys_stepJob]

/-! ### Fold invariants -/

theorem foldl_startTime_none (lines : List String) : ∀ m : Metrics,
    ((lines.foldl step m).startTime = none ↔
      (m.startTime = none ∧ ∀ l ∈ lines, logLevelMatch l = none)) := by
  induction lines with
  | nil => intro m; simp
  | cons l rest ih =>
    intro m
    simp only [List.foldl_cons, List.mem_cons]
    rw [ih, step_startTime_none_iff]
    aesop

theorem foldl_endTime_none (lines : List String) : ∀ m : Metrics,
    ((lines.foldl step m).endTime = none ↔
      (m.endTime = none ∧ ∀ l ∈ lines, logLevelMatch l = none)) := by
  induction lines with
  | nil => intro m; simp
  | cons l rest ih =>
    intro m
    simp only [List.foldl_cons, List.mem_cons]
    rw [ih, step_endTime_none_iff]
    aesop

theorem bucketMsgSum_tickInterval_bump (ts : String) (ti : List (String × IntervalCounts))
    (h : (lookupKey (minuteKey ts) ti).isSome = true) :
    bucketMsgSum (tickInterval (fun c => { c with messages := c.messages + 1 }) (some ts) ti)
      = bucketMsgSum ti + 1 := by
  unfold tickInterval bucketMsgSum
  simp only [h, if_true]
  exact sumBy_updateKey_bump _ _ _ _ (fun a => rfl) h

theorem msgLineCovered_spec {l : String} {x : String × String × String × String}
    (hc : msgLineCovered l = true) (hm : messageMatch l = some x) :
    ∃ ts lvl, logLevelMatch l = some (ts, lvl) ∧ timestampMatch l = some ts := by
  unfold msgLineCovered at hc
  rw [hm] at hc
  simp only [Option.isNone_some, Bool.false_or] at hc
  cases hll : logLevelMatch l with
  | none =>
    rw [hll] at hc
    simp at hc
  | some p =>
    obtain ⟨ts, lvl⟩ := p
    cases hts : timestampMatch l with
    | none =>
      rw [hll, hts] at hc
      simp at hc
    | some ts2 =>
      rw [hll, hts] at hc
      simp only [beq_iff_eq] at hc
      exact ⟨ts, lvl, rfl, congrArg some hc.symm⟩

theorem bucketMsgSum_stepLogLevel (m : Metrics) (l : String) :
    bucketMsgSum (stepLogLevel m l).timeIntervals = bucketMsgSum m.timeIntervals := by
  rw [stepLogLevel_timeIntervals]
  cases h : logLevelMatch l with
  | none => rfl
  | some p =>
    obtain ⟨ts, lvl⟩ := p
    exact bucketMsgSum_insertIfAbsent _ _

theorem bucketMsgSum_stepJob (m : Metrics) (l : String) :
    bucketMsgSum (stepJob m l).timeIntervals = bucketMsgSum m.timeIntervals := by
  rw [stepJob_timeIntervals]
  cases h : jobMatch l with
  | none => rfl
  | some j => exact bucketMsgSum_tickInterval_congr _ _ _ (fun c => rfl)

theorem bucketMsgSum_stepStore (m : Metrics) (l : String) :
    bucketMsgSum (stepStore m l).timeIntervals = bucketMsgSum m.timeIntervals := by
  rw [stepStore_timeIntervals]
  cases h : storeMatch l with
  | none => rfl
  | some x => exact bucketMsgSum_tickInterval_congr _ _ _ (fun c => rfl)

theorem bucketMsgSum_stepCache (m : Metrics) (l : String) :
    bucketMsgSum (stepCache m l).timeIntervals = bucketMsgSum m.timeIntervals := by
  rw [stepCache_timeIntervals]
  cases h : cacheMatch l with
  | none => rfl
  | some x => exact bucketMsgSum_tickInterval_congr _ _ _ (fun c => rfl)

theorem lookup_isSome_stepJob (m : Metrics) (l : String) (k : String) :
    (lookupKey k (stepJob m l).timeIntervals).isSome =
      (lookupKey k m.timeIntervals).isSome := by
  rw [stepJob_timeIntervals]
  cases h : jobMatch l with
  | none => rfl
  | some j => exact lookupKey_isSome_tickInterval _ _ _ _

theorem bucketMsgSum_stepMessage_some {m : Metrics} {l : String}
    {x : String × String × String × String} {ts : String}
    (hm : messageMatch l = some x) (hts : timestampMatch l = some ts)
    (hk : (lookupKey (minuteKey ts) m.timeIntervals).isSome = true) :
    bucketMsgSum (stepMessage m l).timeIntervals = bucketMsgSum m.timeIntervals + 1 := by
  rw [stepMessage_timeIntervals, hm, hts]
  exact bucketMsgSum_tickInterval_bump _ _ hk

theorem step_bucketMsgSum (m : Metrics) (l : String) (hc : msgLineCovered l = true) :
    bucketMsgSum (step m l).timeIntervals =
      bucketMsgSum m.timeIntervals + (if (messageMatch l).isSome then 1 else 0) := by
  cases hm : messageMatch l with
  | none =>
    unfold step
    rw [bucketMsgSum_stepCache, bucketMsgSum_stepStore, stepMessage_none hm,
      bucketMsgSum_stepJob, bucketMsgSum_stepLogLevel]
    simp
  | some x =>
    obtain ⟨ts, lvl, hll, hts⟩ := msgLineCovered_spec hc hm
    unfold step
    rw [bucketMsgSum_stepCache, bucketMsgSum_stepStore]
    have hk : (lookupKey (minuteKey ts)
        (stepJob (stepLogLevel m l) l).timeIntervals).isSome = true := by
      rw [lookup_isSome_stepJob, stepLogLevel_timeIntervals, hll]
      exact lookupKey_insertIfAbsent_self _ _ _
    rw [bucketMsgSum_stepMessage_some hm hts hk, bucketMsgSum_stepJob,
      bucketMsgSum_stepLogLevel]
    simp

theorem foldl_bucketMsgSum (lines : List String) : ∀ m : Metrics,
    (∀ l ∈ lines, msgLineCovered l = true) →
    bucketMsgSum m.timeIntervals = m.messagesSent →
    bucketMsgSum (lines.foldl step m).timeIntervals = (lines.foldl step m).messagesSent := by
  induction lines with
  | nil =>
    intro m _ h
    simpa using h
  | cons l rest ih =>
    intro m hcov hinv
    simp only [List.foldl_cons]
    apply ih
    · intro x hx
      exact hcov x (List.mem_cons_of_mem _ hx)
    · rw [step_bucketMsgSum _ _ (hcov l (List.mem_cons_self _ _)), step_messagesSent, hinv]

theorem mem_keys_insertIfAbsent {α : Type} {k k2 : String} {v : α}
    {l : List (String × α)} (h : k ∈ (insertIfAbsent k2 v l).map (fun p => p.1)) :
    k ∈ l.map (fun p => p.1) ∨ k = k2 := by
  unfold insertIfAbsent at h
  by_cases hs : (lookupKey k2 l).isSome = true
  · rw [if_pos hs] at h
    exact Or.inl h
  · rw [if_neg hs] at h
    simp only [List.map_append, List.map_cons, List.map_nil, List.mem_append,
      List.mem_singleton] at h
    exact h

theorem step_keys_mem (m : Metrics) (l : String) (k : String)
    (h : k ∈ (step m l).timeIntervals.map (fun p => p.1)) :
    k ∈ m.timeIntervals.map (fun p => p.1) ∨
      ∃ ts lvl, logLevelMatch l = some (ts, lvl) ∧ k = minuteKey ts := by
  rw [step_keys, stepLogLevel_timeIntervals] at h
  cases hll : logLevelMatch l with
  | none =>
    rw [hll] at h
    exact Or.inl h
  | some p =>
    obtain ⟨ts, lvl⟩ := p
    rw [hll] at h
    rcases mem_keys_insertIfAbsent h with h2 | h2
    · exact Or.inl h2
    · exact Or.inr ⟨ts, lvl, rfl, h2⟩

theorem foldl_keys_mem (lines : List String) : ∀ (m : Metrics) (k : String),
    k ∈ (lines.foldl step m).timeIntervals.map (fun p => p.1) →
    k ∈ m.timeIntervals.map (fun p => p.1) ∨
      ∃ l ∈ lines, ∃ ts lvl, logLevelMatch l = some (ts, lvl) ∧ k = minuteKey ts := by
  induction lines with
  | nil =>
    intro m k h
    exact Or.inl h
  | cons l rest ih =>
    intro m k h
    simp only [List.foldl_cons] at h
    rcases ih _ k h with h2 | h2
    · rcases step_keys_mem m l k h2 with h3 | h3
      · exact Or.inl h3
      · exact Or.inr ⟨l, List.mem_cons_self _ _, h3⟩
    · obtain ⟨l2, hl2, rest2⟩ := h2
      exact Or.inr ⟨l2, List.mem_cons_of_mem _ hl2, rest2⟩

theorem stepMessage_uniqueWaba_ne_nil {m : Metrics} {l : String}
    (h : m.uniqueWabaNumbers ≠ []) : (stepMessage m l).uniqueWabaNumbers ≠ [] := by
  rw [stepMessage_uniqueWabaNumbers]
  cases hm : messageMatch l with
  | none => exact h
  | some p =>
    obtain ⟨w, p2⟩ := p
    obtain ⟨i, p3⟩ := p2
    obtain ⟨t, g⟩ := p3
    exact setAdd_ne_nil _ _

theorem step_cacheHits_inv (m : Metrics) (l : String)
    (h : 0 < m.cacheHits → m.uniqueWabaNumbers ≠ []) :
    0 < (step m l).cacheHits → (step m l).uniqueWabaNumbers ≠ [] := by
  intro hpos
  unfold step at hpos ⊢
  cases hca : cacheMatch l with
  | some w =>
    rw [stepCache_uniqueWabaNumbers, hca]
    exact setAdd_ne_nil _ _
  | none =>
    rw [stepCache_none hca] at hpos ⊢
    rw [stepStore_cacheHits, stepMessage_cacheHits, stepJob_cacheHits,
      stepLogLevel_cacheHits] at hpos
    rw [stepStore_uniqueWabaNumbers]
    apply stepMessage_uniqueWaba_ne_nil
    rw [stepJob_uniqueWabaNumbers, stepLogLevel_uniqueWabaNumbers]
    exact h hpos

theorem foldl_cacheHits_inv (lines : List String) : ∀ m : Metrics,
    (0 < m.cacheHits → m.uniqueWabaNumbers ≠ []) →
    (0 < (lines.foldl step m).cacheHits → (lines.foldl step m).uniqueWabaNumbers ≠ []) := by
  induction lines with
  | nil =>
    intro m h
    exact h
  | cons l rest ih =>
    intro m h
    simp only [List.foldl_cons]
    exact ih _ (step_cacheHits_inv m l h)

theorem wabaCountSum_stepMessage (m : Metrics) (l : String) :
    wabaCountSum (stepMessage m l).wabaMessageMap =
      wabaCountSum m.wabaMessageMap + (if (messageMatch l).isSome then 1 else 0) := by
  rw [stepMessage_wabaMessageMap]
  cases hm : messageMatch l with
  | none => simp
  | some p =>
    obtain ⟨w, p2⟩ := p
    obtain ⟨i, p3⟩ := p2
    obtain ⟨t, g⟩ := p3
    simp only [Option.isSome_some, if_true]
    unfold wabaCountSum
    rw [sumBy_updateKey_bump (fun d : WabaData => d.count)
      (fun d => { d with
        messageIds := setAdd g d.messageIds,
        wamids := setAdd t d.wamids,
        count := d.count + 1 })
      w (insertIfAbsent w ⟨[], [], 0⟩ m.wabaMessageMap) (fun a => rfl)
      (lookupKey_insertIfAbsent_self _ _ _)]
    rw [sumBy_insertIfAbsent (fun d : WabaData => d.count) w ⟨[], [], 0⟩ m.wabaMessageMap rfl]

theorem step_wabaCountSum (m : Metrics) (l : String) :
    wabaCountSum (step m l).wabaMessageMap =
      wabaCountSum m.wabaMessageMap + (if (messageMatch l).isSome then 1 else 0) := by
  rw [step_wabaMessageMap, wabaCountSum_stepMessage, stepJob_wabaMessageMap,
    stepLogLevel_wabaMessageMap]

theorem foldl_wabaCountSum (lines : List String) : ∀ m : Metrics,
    wabaCountSum m.wabaMessageMap = m.messagesSent →
    wabaCountSum (lines.foldl step m).wabaMessageMap = (lines.foldl step m).messagesSent := by
  induction lines with
  | nil =>
    intro m h
    simpa using h
  | cons l rest ih =>
    intro m h
    simp only [List.foldl_cons]
    apply ih
    rw [step_wabaCountSum, step_messagesSent, h]

theorem step_noLevel_frame (m : Metrics) (l : String) (h : logLevelMatch l = none) :
    (step m l).startTime = m.startTime ∧ (step m l).endTime = m.endTime ∧
    (step m l).timeIntervals.map (fun p => p.1) = m.timeIntervals.map (fun p => p.1) := by
  refine ⟨?_, ?_, ?_⟩
  · rw [step_startTime, stepLogLevel_none h]
  · rw [step_endTime, stepLogLevel_none h]
  · rw [step_keys, stepLogLevel_none h]

theorem foldl_timeIntervals_nil (lines : List String) : ∀ m : Metrics,
    (∀ l ∈ lines, logLevelMatch l = none) → m.timeIntervals = [] →
    (lines.foldl step m).timeIntervals = [] := by
  induction lines with
  | nil =>
    intro m _ h
    exact h
  | cons l rest ih =>
    intro m hcov h
    simp only [List.foldl_cons]
    apply ih
    · intro x hx
      exact hcov x (List.mem_cons_of_mem _ hx)
    · have hk := (step_noLevel_frame m l (hcov l (List.mem_cons_self _ _))).2.2
      rw [h] at hk
      simpa using hk

/-! ### Derived-metrics helpers -/

theorem calculateMetrics_ok_elim {m : Metrics} {r : Report}
    (hr : calculateMetrics m = Except.ok r) :
    ∃ st en, m.startTime = some st ∧ m.endTime = some en ∧ r = buildReport m st en := by
  unfold calculateMetrics at hr
  cases hs : m.startTime with
  | none =>
    rw [hs] at hr
    simp at hr
  | some st =>
    cases he : m.endTime with
    | none =>
      rw [hs, he] at hr
      simp at hr
    | some en =>
      rw [hs, he] at hr
      simp only [Except.ok.injEq] at hr
      exact ⟨st, en, rfl, rfl, hr.symm⟩

theorem processLines_startTime_none (lines : List String) :
    (processLines lines).startTime = none ↔ ∀ l ∈ lines, logLevelMatch l = none := by
  have h := foldl_startTime_none lines initMetrics
  simpa [processLines, initMetrics] using h

theorem processLines_endTime_none (lines : List String) :
    (processLines lines).endTime = none ↔ ∀ l ∈ lines, logLevelMatch l = none := by
  have h := foldl_endTime_none lines initMetrics
  simpa [processLines, initMetrics] using h

theorem sum_map_percent (l : List (String × WabaData)) (s : ℚ) :
    (l.map (fun p => ((p.2.count : ℚ) / s) * 100)).sum =
      ((sumBy (fun d => d.count) l : ℚ) / s) * 100 := by
  induction l with
  | nil => simp [sumBy]
  | cons p rest ih =>
    simp only [List.map_cons, List.sum_cons, sumBy] at ih ⊢
    rw [ih]
    push_cast
    ring

/-! ## Claim theorems -/

/-- C4: the derived-metrics calculation fails exactly when no timestamps were
ever observed (the start/end bound is `none` in the final accumulator, which
happens precisely when no line matched the log-level pattern); in that case
the pipeline exits with the fatal error and produces no artifacts, and
otherwise the report is computed and the artifacts are produced. -/
theorem C4_fatal_iff_no_timestamps (lines : List String) (fmt : String) :
    ((processLines lines).startTime = none ↔ ∀ l ∈ lines, logLevelMatch l = none) ∧
    ((processLines lines).endTime = none ↔ (processLines lines).startTime = none) ∧
    (runMain lines fmt = Except.error ("No valid timestamps found in log.") ↔
      (processLines lines).startTime = none) ∧
    ((processLines lines).startTime ≠ none →
      ∃ r, calculateMetrics (processLines lines) = Except.ok r ∧
        runMain lines fmt = Except.ok (outputsFor fmt r)) := by
  have hs := processLines_startTime_none lines
  have he := processLines_endTime_none lines
  refine ⟨hs, by rw [he, hs], ?_, ?_⟩
  · by_cases hn : (processLines lines).startTime = none
    · have hne : (processLines lines).endTime = none := he.mpr (hs.mp hn)
      simp [runMain, calculateMetrics, hn, hne, Except.map]
    · obtain ⟨st, hst⟩ := Option.ne_none_iff_exists'.mp hn
      have hen : (processLines lines).endTime ≠ none :=
        fun hcon => hn (hs.mpr (he.mp hcon))
      obtain ⟨en, hene⟩ := Option.ne_none_iff_exists'.mp hen
      simp [runMain, calculateMetrics, hst, hene, hn, Except.map]
  · intro hn
    obtain ⟨st, hst⟩ := Option.ne_none_iff_exists'.mp hn
    have hen : (processLines lines).endTime ≠ none :=
      fun hcon => hn (hs.mpr (he.mp hcon))
    obtain ⟨en, hene⟩ := Option.ne_none_iff_exists'.mp hen
    refine ⟨buildReport (processLines lines) st en, ?_, ?_⟩
    · simp [calculateMetrics, hst, hene]
    · simp [runMain, calculateMetrics, hst, hene, Except.map]

/-- Witness for C4: the empty input observes no timestamps, so the run fails
with the fatal error. -/
theorem C4_witness :
    runMain [] "all" = Except.error ("No valid timestamps found in log.") :=
  (C4_fatal_iff_no_timestamps [] "all").2.2.1.mpr rfl

/-- C10: only lines matching the log-level pattern update the start/end
bounds or create a time bucket; a file of event lines that carry timestamps
but no `level:` marker leaves the bounds unset and the bucket map empty, so
the fatal no-timestamps condition fires. -/
theorem C10_bounds_only_from_log_level (lines : List String) (l : String) (m : Metrics)
    (h : ∀ l2 ∈ lines, logLevelMatch l2 = none) (hl : logLevelMatch l = none) :
    ((step m l).startTime = m.startTime ∧ (step m l).endTime = m.endTime ∧
      (step m l).timeIntervals.map (fun p => p.1) = m.timeIntervals.map (fun p => p.1)) ∧
    (processLines lines).startTime = none ∧
    (processLines lines).endTime = none ∧
    (processLines lines).timeIntervals = [] ∧
    calculateMetrics (processLines lines) =
      Except.error ("No valid timestamps found in log.") := by
  have hs : (processLines lines).startTime = none := (processLines_startTime_none lines).mpr h
  have he : (processLines lines).endTime = none := (processLines_endTime_none lines).mpr h
  refine ⟨step_noLevel_frame m l hl, hs, he, ?_, ?_⟩
  · exact foldl_timeIntervals_nil lines initMetrics h rfl
  · simp [calculateMetrics, hs, he]

/-- Witness for C10: a message line and a job line, each carrying a
timestamp but no `level:` marker, are counted as events yet the run still
fails with the fatal no-timestamps error. -/
theorem C10_witness :
    calculateMetrics (processLines [tsSendLine, tsJobLine]) =
      Except.error ("No valid timestamps found in log.") ∧
    (processLines [tsSendLine, tsJobLine]).messagesSent = 1 ∧
    (processLines [tsSendLine, tsJobLine]).completedJobs = 1 := by
  refine ⟨(C10_bounds_only_from_log_level [tsSendLine, tsJobLine] tsSendLine initMetrics
    (by decide) (by decide)).2.2.2.2, by decide, by decide⟩

/-- C1 counterexample: a run whose second line is a message-sent event with
a timestamp but no `level:` marker.  The report is produced
(`messages.total = 1`), yet no time bucket for the message's minute exists,
so the bucket message counts sum to `0`, not to `messages.total`: the
claimed equality fails, because buckets are created only by log-level
lines and event updates are skipped when the bucket is missing. -/
theorem C1_counterexample :
    (processLines [plainLogLine, tsSendLine]).messagesSent = 1 ∧
    bucketMsgSum (processLines [plainLogLine, tsSendLine]).timeIntervals = 0 ∧
    (calculateMetrics (processLines [plainLogLine, tsSendLine])).toOption.map
      (fun r => r.messages.total) = some 1 := by
  refine ⟨by decide, by decide, by decide⟩

/-- C1 (amended): a bucket's key is a log-level line's timestamp truncated
to 16 characters (minute granularity) and buckets are created lazily, but
only by log-level lines; event updates touch a bucket only if it already
exists.  Consequently the per-bucket message counts sum to
`messages.total` provided every message-sent line also matches the
log-level pattern with the same timestamp (the ordinary line layout). -/
theorem C1_time_bucket_sum (lines : List String)
    (hcov : ∀ l ∈ lines, msgLineCovered l = true) :
    bucketMsgSum (processLines lines).timeIntervals = (processLines lines).messagesSent ∧
    (∀ k ∈ (processLines lines).timeIntervals.map (fun p => p.1),
      ∃ l ∈ lines, ∃ ts lvl, logLevelMatch l = some (ts, lvl) ∧ k = minuteKey ts) ∧
    (∀ r, calculateMetrics (processLines lines) = Except.ok r →
      r.messages.total = (processLines lines).messagesSent) := by
  refine ⟨?_, ?_, ?_⟩
  · exact foldl_bucketMsgSum lines initMetrics hcov rfl
  · intro k hk
    rcases foldl_keys_mem lines initMetrics k hk with h | h
    · simp [initMetrics] at h
    · exact h
  · intro r hr
    obtain ⟨st, en, h1, h2, hre⟩ := calculateMetrics_ok_elim hr
    subst hre
    simp [buildReport]

/-- Witness for C1: both sample lines are covered (the message line also
matches the log-level pattern), and then the bucket message counts sum to
`messages.total`. -/
theorem C1_witness :
    msgLineCovered sendLine = true ∧ msgLineCovered storeLine = true ∧
    bucketMsgSum (processLines [sendLine, storeLine]).timeIntervals =
      (processLines [sendLine, storeLine]).messagesSent ∧
    (processLines [sendLine, storeLine]).messagesSent = 1 := by
  exact ⟨by decide, by decide,
    (C1_time_bucket_sum [sendLine, storeLine] (by decide)).1, by decide⟩

/-- C3 counterexample: a message-sent line without any timestamp leaves a
pending entry whose `sentTimestamp` is missing; the matching store line
(also without a timestamp) finds the transport id in the pending table, yet
no processing-time record is produced — the claimed "exactly one record
per previously-seen transport id" fails when a timestamp is absent. -/
theorem C3_counterexample :
    (messageMatch bareSendLine).isSome = true ∧
    (lookupKey "ab1" (processLines [bareSendLine]).messagesToStore).isSome = true ∧
    storeMatch bareStoreLine = some ("111", "ab1", "A-1") ∧
    (processLines [bareSendLine, bareStoreLine]).storeOperations = 1 ∧
    (processLines [bareSendLine, bareStoreLine]).processingTimes = [] := by
  refine ⟨by decide, by decide, by decide, by decide, by decide⟩

/-- C3 (amended): on a store line (that is not also a message line), a
processing-time record is appended only when the store's transport id is a
key of the pending table; when it is, the pending entry is consumed
(removed), the record is appended exactly when both the pending send
timestamp and the store line's timestamp are present, and a second store
for the same transport id appends nothing. -/
theorem C3_processing_time_once (m : Metrics) (l : String) (w t g : String)
    (hs : storeMatch l = some (w, t, g)) (hm : messageMatch l = none) :
    (lookupKey t m.messagesToStore = none →
      (step m l).processingTimes = m.processingTimes) ∧
    (∀ p, lookupKey t m.messagesToStore = some p →
      lookupKey t (step m l).messagesToStore = none ∧
      ((∃ st ts2, p.sentTimestamp = some st ∧ timestampMatch l = some ts2 ∧
          (step m l).processingTimes =
            m.processingTimes ++ [⟨t, g, w, dateMs ts2 - dateMs st⟩]) ∨
       ((p.sentTimestamp = none ∨ timestampMatch l = none) ∧
          (step m l).processingTimes = m.processingTimes))) ∧
    (∀ l2 w2 g2, storeMatch l2 = some (w2, t, g2) → messageMatch l2 = none →
      (step (step m l) l2).processingTimes = (step m l).processingTimes) := by
  have hstep : step m l = stepCache (stepStore (stepJob (stepLogLevel m l) l) l) l := by
    unfold step
    rw [stepMessage_none hm]
  have hpre_ms : (stepJob (stepLogLevel m l) l).messagesToStore = m.messagesToStore := by
    rw [stepJob_messagesToStore, stepLogLevel_messagesToStore]
  have hpre_pt : (stepJob (stepLogLevel m l) l).processingTimes = m.processingTimes := by
    rw [stepJob_processingTimes, stepLogLevel_processingTimes]
  have hpt : (step m l).processingTimes =
      match lookupKey t m.messagesToStore with
      | some pending =>
        match pending.sentTimestamp, timestampMatch l with
        | some sentTime, some storeTime =>
          m.processingTimes ++ [⟨t, g, w, dateMs storeTime - dateMs sentTime⟩]
        | _, _ => m.processingTimes
      | none => m.processingTimes := by
    rw [hstep, stepCache_processingTimes, stepStore_processingTimes_eq hs, hpre_ms, hpre_pt]
  have hms : (step m l).messagesToStore =
      (if (lookupKey t m.messagesToStore).isSome then removeKey t m.messagesToStore
       else m.messagesToStore) := by
    rw [hstep, stepCache_messagesToStore, stepStore_messagesToStore_eq hs, hpre_ms]
  have hnone2 : lookupKey t (step m l).messagesToStore = none := by
    rw [hms]
    by_cases hl : (lookupKey t m.messagesToStore).isSome = true
    · rw [if_pos hl]
      exact lookupKey_removeKey_self _ _
    · rw [if_neg hl]
      cases hlk : lookupKey t m.messagesToStore with
      | none => rfl
      | some p =>
        rw [hlk] at hl
        simp at hl
  refine ⟨?_, ?_, ?_⟩
  · intro hnone
    rw [hpt, hnone]
  · intro p hp
    constructor
    · rw [hms, hp]
      simp only [Option.isSome_some, if_true]
      exact lookupKey_removeKey_self _ _
    · have hpt2 : (step m l).processingTimes =
          match p.sentTimestamp, timestampMatch l with
          | some sentTime, some storeTime =>
            m.processingTimes ++ [⟨t, g, w, dateMs storeTime - dateMs sentTime⟩]
          | _, _ => m.processingTimes := by
        rw [hpt, hp]
      cases hsent : p.sentTimestamp with
      | none =>
        refine Or.inr ⟨Or.inl rfl, ?_⟩
        rw [hpt2, hsent]
      | some st =>
        cases hts : timestampMatch l with
        | none =>
          refine Or.inr ⟨Or.inr rfl, ?_⟩
          rw [hpt2, hsent, hts]
        | some ts2 =>
          refine Or.inl ⟨st, ts2, rfl, rfl, ?_⟩
          rw [hpt2, hsent, hts]
  · intro l2 w2 g2 hs2 hm2
    have hstep2 : step (step m l) l2 =
        stepCache (stepStore (stepJob (stepLogLevel (step m l) l2) l2) l2) l2 := by
      unfold step
      rw [stepMessage_none hm2]
    have h2pre_ms : (stepJob (stepLogLevel (step m l) l2) l2).messagesToStore =
        (step m l).messagesToStore := by
      rw [stepJob_messagesToStore, stepLogLevel_messagesToStore]
    have h2pre_pt : (stepJob (stepLogLevel (step m l) l2) l2).processingTimes =
        (step m l).processingTimes := by
      rw [stepJob_processingTimes, stepLogLevel_processingTimes]
    rw [hstep2, stepCache_processingTimes, stepStore_processingTimes_eq hs2, h2pre_ms,
      h2pre_pt, hnone2]

/-- Witness for C3: the pending entry for wamid `ab1` created by `sendLine`
is consumed by `storeLine`, producing one 2000 ms record; the store's
transport id is no longer pending afterwards. -/
theorem C3_witness :
    (lookupKey "ab1" (processLines [sendLine]).messagesToStore).isSome = true ∧
    lookupKey "ab1" (step (processLines [sendLine]) storeLine).messagesToStore = none ∧
    (step (processLines [sendLine]) storeLine).processingTimes =
      [⟨"ab1", "A-1", "111", 2000⟩] := by
  refine ⟨by decide, ?_, by decide⟩
  exact ((C3_processing_time_once (processLines [sendLine]) storeLine "111" "ab1" "A-1"
    (by decide) (by decide)).2.1 ⟨"111", "A-1", some sendTs⟩ (by decide)).1

/-- C5 counterexample: a single-line log has a zero-length window and one
sent message; `messages.perSecond` is `1 / 0 = Infinity`, not NaN — the
division is not guarded and the claimed not-a-number result fails. -/
theorem C5_counterexample :
    (calculateMetrics (processLines [sendLine])).toOption.map
      (fun r => (r.duration.milliseconds, r.messages.total, r.messages.perSecond)) =
      some (0, 1, JsNum.posInf) ∧
    JsNum.posInf ≠ JsNum.nan := by
  have hst : (processLines [sendLine]).startTime = some (dateMs sendTs) := by decide
  have hen : (processLines [sendLine]).endTime = some (dateMs sendTs) := by decide
  have hok : calculateMetrics (processLines [sendLine]) =
      Except.ok (buildReport (processLines [sendLine]) (dateMs sendTs) (dateMs sendTs)) := by
    simp [calculateMetrics, hst, hen]
  refine ⟨?_, by decide⟩
  rw [hok]
  simp only [Except.toOption, Option.map, buildReport]
  rw [show (processLines [sendLine]).messagesSent = 1 from by decide]
  norm_num [jsDiv]

/-- C5 (amended): when the duration is zero the per-second rates are
unguarded IEEE divisions by zero: not-a-number when the corresponding count
is zero (`0/0`), and positive infinity when the count is positive
(`n/0`). -/
theorem C5_zero_duration_rates (m : Metrics) (t : Int)
    (h1 : m.startTime = some t) (h2 : m.endTime = some t) :
    ∃ r, calculateMetrics m = Except.ok r ∧
      r.duration.milliseconds = 0 ∧
      r.messages.perSecond = (if m.messagesSent = 0 then JsNum.nan else JsNum.posInf) ∧
      r.jobs.perSecond = (if m.completedJobs = 0 then JsNum.nan else JsNum.posInf) := by
  have hz : ((t - t : Int) : ℚ) / 1000 = 0 := by
    push_cast
    ring
  refine ⟨buildReport m t t, by simp [calculateMetrics, h1, h2], ?_, ?_, ?_⟩
  · simp [buildReport]
  · simp only [buildReport]
    rw [hz]
    simp only [jsDiv, if_pos rfl]
    by_cases hs0 : m.messagesSent = 0
    · simp [hs0]
    · have hpos : (0 : ℚ) < m.messagesSent := by
        exact_mod_cast Nat.pos_of_ne_zero hs0
      simp [hs0, hpos, Nat.cast_eq_zero]
  · simp only [buildReport]
    rw [hz]
    simp only [jsDiv, if_pos rfl]
    by_cases hs0 : m.completedJobs = 0
    · simp [hs0]
    · have hpos : (0 : ℚ) < m.completedJobs := by
        exact_mod_cast Nat.pos_of_ne_zero hs0
      simp [hs0, hpos, Nat.cast_eq_zero]

/-- Witness for C5: the single-line run instantiates the zero-duration
case; one message was sent and no job completed, so the two rates are
Infinity and NaN respectively. -/
theorem C5_witness :
    (calculateMetrics (processLines [sendLine])).toOption.map
      (fun r => (r.duration.milliseconds, r.messages.perSecond, r.jobs.perSecond)) =
      some (0, JsNum.posInf, JsNum.nan) := by
  obtain ⟨r, hr, hd, hmp, hjp⟩ := C5_zero_duration_rates (processLines [sendLine])
    (dateMs sendTs) (by decide) (by decide)
  rw [hr]
  simp only [Except.toOption, Option.map, hd, hmp, hjp]
  rw [show (processLines [sendLine]).messagesSent = 1 from by decide,
    show (processLines [sendLine]).completedJobs = 0 from by decide]
  rfl

/-- C6 counterexample: with no processing-time records, `minTimeMs` and
`maxTimeMs` are reported as not available, but the average is reported as
the number zero — so "no latency" is not distinguishable from "no data"
through the average, contradicting the claim that all three statistics are
"not available" and never zero. -/
theorem C6_counterexample :
    (calculateMetrics (processLines [plainLogLine])).toOption.map
      (fun r => (r.processing.measuredMessages, r.processing.avgTimeMs,
        r.processing.minTimeMs, r.processing.maxTimeMs)) =
      some (0, JsNum.finite 0, NumOrNA.na, NumOrNA.na) := by
  decide

/-- C6 (amended): with an empty processing-time list the min and max are
reported as not available, while the average is reported as zero. -/
theorem C6_processing_empty (m : Metrics) (st en : Int)
    (h1 : m.startTime = some st) (h2 : m.endTime = some en)
    (hp : m.processingTimes = []) :
    ∃ r, calculateMetrics m = Except.ok r ∧
      r.processing.minTimeMs = NumOrNA.na ∧
      r.processing.maxTimeMs = NumOrNA.na ∧
      r.processing.avgTimeMs = JsNum.finite 0 ∧
      r.processing.measuredMessages = 0 := by
  refine ⟨buildReport m st en, by simp [calculateMetrics, h1, h2], ?_, ?_, ?_, ?_⟩ <;>
    simp [buildReport, hp]

/-- Witness for C6: the single plain log line yields an empty
processing-time list, not-available min/max and a zero average. -/
theorem C6_witness :
    (calculateMetrics (processLines [plainLogLine])).toOption.map
      (fun r => (r.processing.avgTimeMs, r.processing.minTimeMs, r.processing.maxTimeMs)) =
      some (JsNum.finite 0, NumOrNA.na, NumOrNA.na) := by
  obtain ⟨r, hr, hmin, hmax, havg, hmeas⟩ := C6_processing_empty (processLines [plainLogLine])
    (dateMs sendTs) (dateMs sendTs) (by decide) (by decide) (by decide)
  rw [hr]
  simp only [Except.toOption, Option.map, hmin, hmax, havg]

/-- C7 counterexample: a run with no cache hits and no WABA numbers divides
`0 / 0`; `hitsPerWabaNumber` is NaN, a non-numeric value, so the division is
not zero-guarded as claimed. -/
theorem C7_counterexample :
    (processLines [plainLogLine]).uniqueWabaNumbers = [] ∧
    (calculateMetrics (processLines [plainLogLine])).toOption.map
      (fun r => r.cacheMetrics.hitsPerWabaNumber) = some JsNum.nan := by
  have hst : (processLines [plainLogLine]).startTime = some (dateMs sendTs) := by decide
  have hen : (processLines [plainLogLine]).endTime = some (dateMs sendTs) := by decide
  have hok : calculateMetrics (processLines [plainLogLine]) =
      Except.ok (buildReport (processLines [plainLogLine]) (dateMs sendTs) (dateMs sendTs)) := by
    simp [calculateMetrics, hst, hen]
  refine ⟨by decide, ?_⟩
  rw [hok]
  simp only [Except.toOption, Option.map, buildReport]
  rw [show (processLines [plainLogLine]).cacheHits = 0 from by decide,
    show (processLines [plainLogLine]).uniqueWabaNumbers = [] from by decide]
  norm_num [jsDiv]

/-- C7 (amended): the reported cache density is the unguarded IEEE division
cache-hits / unique-WABA-count; when the unique-WABA set is empty the value
is NaN.  In any state reachable by the fold a positive hit count implies a
nonempty set (every cache hit inserts its WABA number), so the NaN case
occurs only with zero hits. -/
theorem C7_cache_density (lines : List String) :
    (0 < (processLines lines).cacheHits → (processLines lines).uniqueWabaNumbers ≠ []) ∧
    (∀ r, calculateMetrics (processLines lines) = Except.ok r →
      r.cacheMetrics.hitsPerWabaNumber =
        jsDiv (JsNum.finite ((processLines lines).cacheHits : ℚ))
          (JsNum.finite (((processLines lines).uniqueWabaNumbers.length : ℚ))) ∧
      ((processLines lines).uniqueWabaNumbers = [] →
        r.cacheMetrics.hitsPerWabaNumber = JsNum.nan)) := by
  have hinv : 0 < (processLines lines).cacheHits →
      (processLines lines).uniqueWabaNumbers ≠ [] := by
    have h := foldl_cacheHits_inv lines initMetrics (by intro hcon; simp [initMetrics] at hcon)
    exact h
  refine ⟨hinv, ?_⟩
  intro r hr
  obtain ⟨st, en, h1, h2, hre⟩ := calculateMetrics_ok_elim hr
  subst hre
  constructor
  · simp [buildReport]
  · intro hempty
    have hz : (processLines lines).cacheHits = 0 := by
      by_contra hnz
      exact (hinv (Nat.pos_of_ne_zero hnz)) hempty
    simp [buildReport, hempty, hz, jsDiv]

/-- Witness for C7: the single plain-log-line run has an empty WABA set and
its reported cache density is NaN. -/
theorem C7_witness :
    (calculateMetrics (processLines [plainLogLine])).toOption.map
      (fun r => r.cacheMetrics.hitsPerWabaNumber) = some JsNum.nan := by
  have hok : calculateMetrics (processLines [plainLogLine]) =
      Except.ok (buildReport (processLines [plainLogLine]) (dateMs sendTs) (dateMs sendTs)) := by
    simp [calculateMetrics, show (processLines [plainLogLine]).startTime =
      some (dateMs sendTs) from by decide,
      show (processLines [plainLogLine]).endTime = some (dateMs sendTs) from by decide]
  have h := ((C7_cache_density [plainLogLine]).2 _ hok).2 (by decide)
  rw [hok]
  simp only [Except.toOption, Option.map, h]

/-- C8: the success rate is the guarded expression
`(storeOperations / messagesSent) * 100` when at least one message was
sent and exactly `0` otherwise, and it is a finite nonnegative rational in
either case. -/
theorem C8_success_rate (m : Metrics) (st en : Int)
    (h1 : m.startTime = some st) (h2 : m.endTime = some en) :
    ∃ r q, calculateMetrics m = Except.ok r ∧
      r.messages.successRate = JsNum.finite q ∧ 0 ≤ q ∧
      (m.messagesSent = 0 → q = 0) ∧
      (0 < m.messagesSent →
        q = ((m.storeOperations : ℚ) / (m.messagesSent : ℚ)) * 100) := by
  refine ⟨buildReport m st en,
    (if 0 < m.messagesSent then ((m.storeOperations : ℚ) / (m.messagesSent : ℚ)) * 100 else 0),
    by simp [calculateMetrics, h1, h2], by simp [buildReport], ?_, ?_, ?_⟩
  · by_cases hp : 0 < m.messagesSent
    · rw [if_pos hp]
      positivity
    · rw [if_neg hp]
  · intro hz
    rw [if_neg (by omega)]
  · intro hp
    rw [if_pos hp]

/-- Witness for C8: one message sent and one store operation give a success
rate of 100. -/
theorem C8_witness :
    (calculateMetrics (processLines [sendLine, storeLine])).toOption.map
      (fun r => r.messages.successRate) = some (JsNum.finite 100) ∧ (0 : ℚ) ≤ 100 := by
  obtain ⟨r, q, hr, hq, hnn, hz, hp⟩ := C8_success_rate (processLines [sendLine, storeLine])
    (dateMs sendTs) (dateMs storeTs) (by decide) (by decide)
  have hq100 : q = 100 := by
    rw [hp (by decide), show (processLines [sendLine, storeLine]).storeOperations = 1 from
      by decide, show (processLines [sendLine, storeLine]).messagesSent = 1 from by decide]
    norm_num
  refine ⟨?_, by norm_num⟩
  rw [hr]
  simp only [Except.toOption, Option.map, hq, hq100]

/-- C9: in every final accumulator state reached by the fold in which at
least one message was sent, the per-WABA `percentOfTotal` values are finite
rationals summing exactly to 100 (the per-WABA occurrence counts always sum
to `messagesSent`). -/
theorem C9_waba_percentages (lines : List String) (r : Report)
    (hr : calculateMetrics (processLines lines) = Except.ok r)
    (hpos : 0 < (processLines lines).messagesSent) :
    ∃ qs : List ℚ,
      r.wabaNumbers.messageDistribution.map (fun p => p.2.percentOfTotal) =
        qs.map JsNum.finite ∧ qs.sum = 100 := by
  obtain ⟨st, en, h1, h2, hre⟩ := calculateMetrics_ok_elim hr
  subst hre
  have hs0 : ((processLines lines).messagesSent : ℚ) ≠ 0 := by
    exact_mod_cast hpos.ne'
  refine ⟨(processLines lines).wabaMessageMap.map
    (fun p => ((p.2.count : ℚ) / ((processLines lines).messagesSent : ℚ)) * 100), ?_, ?_⟩
  · simp only [buildReport, List.map_map]
    apply List.map_congr_left
    intro p _
    simp [jsDiv, jsMul, hs0]
  · rw [sum_map_percent]
    have hws : sumBy (fun d : WabaData => d.count) (processLines lines).wabaMessageMap =
        (processLines lines).messagesSent := foldl_wabaCountSum lines initMetrics rfl
    rw [hws, div_self hs0]
    norm_num

/-- Witness for C9: one message for WABA 111 gives a single distribution
entry whose percentage is 100. -/
theorem C9_witness :
    (buildReport (processLines [sendLine]) (dateMs sendTs)
      (dateMs sendTs)).wabaNumbers.messageDistribution.map
        (fun p => p.2.percentOfTotal) = [JsNum.finite 100] := by
  have hok : calculateMetrics (processLines [sendLine]) =
      Except.ok (buildReport (processLines [sendLine]) (dateMs sendTs) (dateMs sendTs)) := by
    simp [calculateMetrics, show (processLines [sendLine]).startTime =
      some (dateMs sendTs) from by decide,
      show (processLines [sendLine]).endTime = some (dateMs sendTs) from by decide]
  obtain ⟨qs, hq, hsum⟩ := C9_waba_percentages [sendLine] _ hok (by decide)
  rw [hq]
  have h0 : qs.map JsNum.finite = [JsNum.finite 100] := by
    rw [← hq]
    simp only [buildReport, List.map_map]
    rw [show (processLines [sendLine]).wabaMessageMap =
      [("111", ⟨["A-1"], ["ab1"], 1⟩)] from by decide,
      show (processLines [sendLine]).messagesSent = 1 from by decide]
    norm_num [jsDiv, jsMul]
  exact h0

/-- C2 (spec-modelled): in JSON mode a well-formed line contributes a
`MessageSent` event exactly when `logger_name` contains the designated
marker and the embedded payload decoded with status `"read"`; a malformed
line yields a reported parse failure, is skipped, and processing continues
with the remaining lines — no line failure is fatal. -/
theorem C2_json_mode (marker : String) :
    (∀ env payload es,
      jsonLineEvents marker (JsonLineInput.envelope env payload) = Except.ok es →
      ((∃ w t g, JsonEvent.messageSent w t g ∈ es) ↔
        (containsSubstring env.logger_name marker = true ∧
          ∃ w t g, payload = PayloadDecode.decoded ("read") w t g))) ∧
    (∀ raw, jsonLineEvents marker (JsonLineInput.malformed raw) =
      Except.error ("JSON parse failure: " ++ raw)) ∧
    (∀ raw rest, processJsonLines marker (JsonLineInput.malformed raw :: rest) =
      ((processJsonLines marker rest).1,
        ("JSON parse failure: " ++ raw) :: (processJsonLines marker rest).2)) := by
  refine ⟨?_, fun raw => rfl, fun raw rest => rfl⟩
  intro env payload es h
  have hes : es = [JsonEvent.logLine env.level env.timestamp] ++
      (if containsSubstring env.logger_name marker then
        match payload with
        | .decoded status w t g =>
          if status = "read" then [JsonEvent.messageSent w t g] else []
        | _ => []
      else []) := by
    unfold jsonLineEvents at h
    simp only [Except.ok.injEq] at h
    exact h.symm
  subst hes
  constructor
  · rintro ⟨w, t, g, hw⟩
    simp only [List.mem_append, List.mem_singleton] at hw
    rcases hw with h1 | h1
    · exact absurd h1 (by simp)
    · by_cases hc : containsSubstring env.logger_name marker = true
      · rw [if_pos hc] at h1
        cases hp : payload with
        | decoded status w2 t2 g2 =>
          rw [hp] at h1
          dsimp only at h1
          by_cases hst : status = "read"
          · rw [if_pos hst] at h1
            simp only [List.mem_singleton, JsonEvent.messageSent.injEq] at h1
            refine ⟨hc, w2, t2, g2, ?_⟩
            rw [hst]
          · rw [if_neg hst] at h1
            simp at h1
        | absent =>
          rw [hp] at h1
          dsimp only at h1
          simp at h1
        | malformed =>
          rw [hp] at h1
          dsimp only at h1
          simp at h1
      · rw [if_neg hc] at h1
        simp at h1
  · rintro ⟨hc, w, t, g, hp⟩
    refine ⟨w, t, g, ?_⟩
    rw [hp, if_pos hc]
    simp

/-- Witness for C2: with marker `Callback`, a logger name containing the
marker and a payload with status `read` yield the `MessageSent` extraction
(here used through the only-when direction), and a malformed line is
recorded as a parse failure while processing continues. -/
theorem C2_witness :
    containsSubstring ("app.CallbackService") ("Callback") = true ∧
    processJsonLines ("Callback") [JsonLineInput.malformed ("not json")] =
      ([], [("JSON parse failure: not json")]) := by
  have h := C2_json_mode ("Callback")
  constructor
  · exact ((h.1 ⟨"info", "msg", "2025-05-16 10:00:00", "app.CallbackService"⟩
      (PayloadDecode.decoded ("read") ("111") ("t1") ("g1")) _ rfl).mp
      ⟨"111", "t1", "g1", by decide⟩).1
  · rw [h.2.2]
    rfl

end LogMetrics
